import Mathlib

/-!
# dify-agent: the streaming translation engine

A shallow embedding of the upstream event parser (`internal/dify/stream.go`), of the
upstream client (`internal/dify/client.go`), of the credential extractor
(`internal/httputil/sse.go`) and of the three adapters
(`internal/adapter/{openai,anthropic,gemini}`): decoding, flattening, blocking and
streaming encoding, and the OpenAI and Gemini handlers.

Conventions of the embedding

* A Go `string` is a Lean `String`; the helpers work on its character list.
* A Go `error` value is a `GoError` (its text); `nil` is `none`.
* A `bufio.Scanner` is the list of lines it delivers together with the value
  `scanner.Err()` has once `Scan` returns false (`none` for a clean end of input).
* A receive-only channel that is drained until it is closed is the list of the
  values sent on it, in sending order.
* `json.Unmarshal` is a library routine: the parser takes it as the parameter
  `unmarshal`.  `json.jsonUnmarshal` below is a small concrete decoder used to
  run the parser on concrete inputs.
* An `http.ResponseWriter` is described by `wr : Nat → Option GoError`, the
  outcome of the k-th call of `fmt.Fprintf` on it (`none`: the write succeeds).
  What reaches the caller is the list of frames written successfully.
-/

set_option maxRecDepth 100000

/-- A Go `error` value, identified by its text. -/
abbrev GoError := String

namespace strings

/-- The predicate `unicode.IsSpace`: the code points with the White_Space property. -/
def isSpace (c : Char) : Bool :=
  let n := c.toNat
  (0x09 ≤ n && n ≤ 0x0d) || n == 0x20 || n == 0x85 || n == 0xa0 || n == 0x1680 ||
  (0x2000 ≤ n && n ≤ 0x200a) || n == 0x2028 || n == 0x2029 || n == 0x202f ||
  n == 0x205f || n == 0x3000

/-- Character-list form of `strings.TrimSpace`: drop leading and trailing white space. -/
def trimChars (l : List Char) : List Char :=
  ((l.dropWhile isSpace).reverse.dropWhile isSpace).reverse

/-- Go `strings.TrimSpace`. -/
def TrimSpace (s : String) : String := ⟨trimChars s.data⟩

/-- Character-list form of `strings.CutPrefix`: the remainder after `pre`, if `l` starts with it. -/
def cutChars : List Char → List Char → Option (List Char)
  | l, [] => some l
  | [], _ :: _ => none
  | c :: l, p :: pre => if c = p then cutChars l pre else none

/-- Go `strings.CutPrefix`, with `(rest, true)` as `some rest` and `(s, false)` as `none`. -/
def CutPrefix (s pre : String) : Option String :=
  (cutChars s.data pre.data).map String.mk

end strings

namespace dify

/-- One SSE event from the upstream (`types.go`, `StreamEvent`). -/
structure StreamEvent where
  Event : String
  TaskID : String
  MessageID : String
  ConversationID : String
  Answer : String
  CreatedAt : Int
  Status : Int
  Code : String
  Message : String
  Err : Option GoError
  deriving DecidableEq, Repr

/-- The zero value of `StreamEvent`. -/
def StreamEvent.zero : StreamEvent :=
  { Event := "", TaskID := "", MessageID := "", ConversationID := "", Answer := "",
    CreatedAt := 0, Status := 0, Code := "", Message := "", Err := none }

/-- The composite literal `StreamEvent{Err: err}`. -/
def errEvent (err : GoError) : StreamEvent := { StreamEvent.zero with Err := some err }

/-- The loop of `ReadStream`: `dataLine` is the loop variable, `lines` what the scanner
still delivers, `scanErr` the value of `scanner.Err()` after the last line.  The result is
the list of events sent on the channel before it is closed.  The field `Err` carries the
tag `json:"-"`, so a decoded event keeps the `nil` of the zero value. -/
def readLoop (unmarshal : String → Except GoError StreamEvent) (scanErr : Option GoError) :
    String → List String → List StreamEvent
  | _, [] =>
    match scanErr with
    | some err => [errEvent err]
    | none => []
  | dataLine, line :: rest =>
    match strings.CutPrefix line "data:" with
    | some r => readLoop unmarshal scanErr (strings.TrimSpace r) rest
    | none =>
      if line = "" ∧ dataLine ≠ "" then
        if dataLine = "[DONE]" then
          readLoop unmarshal scanErr "" rest
        else
          match unmarshal dataLine with
          | .error err => [errEvent err]
          | .ok ev => { ev with Err := none } :: readLoop unmarshal scanErr "" rest
      else
        readLoop unmarshal scanErr dataLine rest

/-- The function `ReadStream` of `stream.go`: the events sent on the returned channel. -/
def ReadStream (unmarshal : String → Except GoError StreamEvent)
    (lines : List String) (scanErr : Option GoError) : List StreamEvent :=
  readLoop unmarshal scanErr "" lines

/-- The value of the loop variable `dataLine` once the loop of `ReadStream` has consumed
`lines`, starting from `dataLine` (as long as the loop has not returned). -/
def pending : String → List String → String
  | dataLine, [] => dataLine
  | dataLine, line :: rest =>
    match strings.CutPrefix line "data:" with
    | some r => pending (strings.TrimSpace r) rest
    | none =>
      if line = "" ∧ dataLine ≠ "" then pending "" rest else pending dataLine rest

/-- The contents of the complete blocks of `lines`: the values `dataLine` has at the
blank lines where the loop of `ReadStream` closes a block (lines 20 to 22). -/
def contents : String → List String → List String
  | _, [] => []
  | dataLine, line :: rest =>
    match strings.CutPrefix line "data:" with
    | some r => contents (strings.TrimSpace r) rest
    | none =>
      if line = "" ∧ dataLine ≠ "" then dataLine :: contents "" rest
      else contents dataLine rest

/-- What `ReadStream` does with the contents of the complete blocks, in order: the sentinel
is skipped, a record is decoded and sent, the first failure is sent and ends the sequence;
`scanErr` is sent when the blocks are used up. -/
def emit (unmarshal : String → Except GoError StreamEvent) (scanErr : Option GoError) :
    List String → List StreamEvent
  | [] =>
    match scanErr with
    | some err => [errEvent err]
    | none => []
  | b :: bs =>
    if b = "[DONE]" then emit unmarshal scanErr bs
    else
      match unmarshal b with
      | .error err => [errEvent err]
      | .ok ev => { ev with Err := none } :: emit unmarshal scanErr bs

/-- The text `p` that follows `data:` on a line is a well-formed record of the event `e`:
trimmed it is neither empty nor the sentinel, and it decodes to `e`, an event without `Err`. -/
def Decodes (unmarshal : String → Except GoError StreamEvent) (p : String)
    (e : StreamEvent) : Prop :=
  strings.TrimSpace p ≠ "" ∧ strings.TrimSpace p ≠ "[DONE]" ∧
    unmarshal (strings.TrimSpace p) = .ok e ∧ e.Err = none

/-- The text `p` that follows `data:` is a malformed record: trimmed it is neither empty
nor the sentinel, and decoding it fails with `err`. -/
def Malformed (unmarshal : String → Except GoError StreamEvent) (p : String)
    (err : GoError) : Prop :=
  strings.TrimSpace p ≠ "" ∧ strings.TrimSpace p ≠ "[DONE]" ∧
    unmarshal (strings.TrimSpace p) = .error err

/-- The lines of a run of complete blocks, one per record: the line `data:` followed by
the record text, then a blank line. -/
def recordLines : List (String × StreamEvent) → List String
  | [] => []
  | r :: rs => ("data:" ++ r.1) :: "" :: recordLines rs

/-- The sentinel block. -/
def doneBlock : List String := ["data: [DONE]", ""]

/-- The events of a list of block contents, all of them well-formed: the sentinel gives no
event, a record gives its decoded event. -/
def events (unmarshal : String → Except GoError StreamEvent) (bs : List String) :
    List StreamEvent :=
  bs.filterMap (fun b =>
    if b = "[DONE]" then none
    else
      match unmarshal b with
      | .ok ev => some { ev with Err := none }
      | .error _ => none)

/-- A token event of kind `message` with answer fragment `a`. -/
def tokenEvent (a : String) : StreamEvent :=
  { StreamEvent.zero with Event := "message", Answer := a }

/-- The record text of the token event with answer `Hel`. -/
def sampleHel : String := "\x7b\"event\":\"message\",\"answer\":\"Hel\"\x7d"

/-- The record text of the token event with answer `lo`. -/
def sampleLo : String := "\x7b\"event\":\"message\",\"answer\":\"lo\"\x7d"

/-- A block content that is not a structured record. -/
def sampleBad : String := "\x7bnot json\x7d"

/-- The first half of a record split over two lines. -/
def splitHead : String := "\x7b\"event\":\"message\","

/-- The second half of a record split over two lines. -/
def splitTail : String := "\"answer\":\"Hi\"\x7d"

/-- A record text cut short. -/
def cutShort : String := "\x7b\"event\":\"mess"

end dify

namespace json

/-- JSON insignificant white space. -/
def isWs (c : Char) : Bool := c == ' ' || c == '\t' || c == '\n' || c == '\r'

/-- Read the body of a string literal (the opening quote is already consumed): the
decoded text and what follows the closing quote.  The two-character escapes are decoded;
a `\u` escape or a raw control character is refused. -/
def readString : List Char → List Char → Option (List Char × List Char)
  | _, [] => none
  | acc, '"' :: cs => some (acc.reverse, cs)
  | _, ['\\'] => none
  | acc, '\\' :: e :: cs =>
    if e = '"' ∨ e = '\\' ∨ e = '/' then readString (e :: acc) cs
    else if e = 'n' then readString ('\n' :: acc) cs
    else if e = 't' then readString ('\t' :: acc) cs
    else if e = 'r' then readString ('\r' :: acc) cs
    else none
  | acc, c :: cs => if c.toNat < 0x20 then none else readString (c :: acc) cs

/-- Read a maximal run of decimal digits: their value so far and the rest. -/
def readDigits : Nat → List Char → Nat × List Char
  | n, [] => (n, [])
  | n, c :: cs => if c.isDigit then readDigits (10 * n + (c.toNat - 48)) cs else (n, c :: cs)

/-- Read an integer literal: an optional minus sign and at least one digit. -/
def readInt : List Char → Option (Int × List Char)
  | '-' :: c :: cs =>
    if c.isDigit then
      let r := readDigits 0 (c :: cs)
      some (-(r.1 : Int), r.2)
    else none
  | c :: cs =>
    if c.isDigit then
      let r := readDigits 0 (c :: cs)
      some ((r.1 : Int), r.2)
    else none
  | [] => none

/-- A member value of a flat object: a string or an integer. -/
inductive Val where
  | str (s : String)
  | num (n : Int)

/-- Read one member value. -/
def readVal : List Char → Option (Val × List Char)
  | '"' :: cs => (readString [] cs).map (fun r => (Val.str ⟨r.1⟩, r.2))
  | cs => (readInt cs).map (fun r => (Val.num r.1, r.2))

/-- Store a member into the field of `StreamEvent` whose tag is `key`; a member with
another name is ignored, a member of the wrong type is refused. -/
def setField (ev : dify.StreamEvent) (key : String) (v : Val) : Option dify.StreamEvent :=
  if key = "event" then
    match v with | .str s => some { ev with Event := s } | .num _ => none
  else if key = "task_id" then
    match v with | .str s => some { ev with TaskID := s } | .num _ => none
  else if key = "message_id" then
    match v with | .str s => some { ev with MessageID := s } | .num _ => none
  else if key = "conversation_id" then
    match v with | .str s => some { ev with ConversationID := s } | .num _ => none
  else if key = "answer" then
    match v with | .str s => some { ev with Answer := s } | .num _ => none
  else if key = "created_at" then
    match v with | .num n => some { ev with CreatedAt := n } | .str _ => none
  else if key = "status" then
    match v with | .num n => some { ev with Status := n } | .str _ => none
  else if key = "code" then
    match v with | .str s => some { ev with Code := s } | .num _ => none
  else if key = "message" then
    match v with | .str s => some { ev with Message := s } | .num _ => none
  else some ev

/-- Read the members of an object after its opening brace, `fuel` bounding the number of
members; the text must end right after the closing brace (white space apart). -/
def readMembers : Nat → dify.StreamEvent → List Char → Option dify.StreamEvent
  | 0, _, _ => none
  | fuel + 1, ev, cs =>
    match cs.dropWhile isWs with
    | '"' :: cs1 =>
      match readString [] cs1 with
      | none => none
      | some (key, cs2) =>
        match cs2.dropWhile isWs with
        | ':' :: cs3 =>
          match readVal (cs3.dropWhile isWs) with
          | none => none
          | some (v, cs4) =>
            match setField ev ⟨key⟩ v with
            | none => none
            | some ev1 =>
              match cs4.dropWhile isWs with
              | ',' :: cs5 => readMembers fuel ev1 cs5
              | '}' :: cs5 => if cs5.dropWhile isWs = [] then some ev1 else none
              | _ => none
        | _ => none
    | _ => none

/-- A decoder for flat JSON objects with string and integer members, standing for
`json.Unmarshal(data, &ev)` on a zero `StreamEvent`; every other text is refused. -/
def jsonUnmarshal (s : String) : Except GoError dify.StreamEvent :=
  match s.data.dropWhile isWs with
  | '{' :: cs =>
    match cs.dropWhile isWs with
    | '}' :: r =>
      if r.dropWhile isWs = [] then .ok dify.StreamEvent.zero
      else .error "invalid character after top-level value"
    | _ =>
      match readMembers s.length dify.StreamEvent.zero cs with
      | some ev => .ok ev
      | none => .error "invalid character in JSON object"
  | _ => .error "invalid character looking for beginning of value"

end json

/-! ## The streaming encoders: definitions -/

namespace dify

/-- An event of one of the two token kinds, `message` and `agent_message`. -/
def isToken (ev : StreamEvent) : Bool :=
  ev.Event = "message" ∨ ev.Event = "agent_message"

/-- The token events of a sequence, in arrival order. -/
def tokens (evs : List StreamEvent) : List StreamEvent := evs.filter isToken

end dify

namespace openai

/-- Incremental content of a chunk (`types.go`, `Delta`). -/
structure Delta where
  Role : String
  Content : String
  deriving DecidableEq, Repr

/-- One choice of a chunk (`types.go`, `StreamChoice`). -/
structure StreamChoice where
  Index : Int
  Delta : openai.Delta
  FinishReason : Option String
  deriving DecidableEq, Repr

/-- One SSE data object (`types.go`, `StreamChunk`). -/
structure StreamChunk where
  ID : String
  Object : String
  Created : Int
  Model : String
  Choices : List StreamChoice
  deriving DecidableEq, Repr

/-- What one successful `fmt.Fprintf` puts on the response: `data` is the format
`"data: %s\n\n"` filled with the JSON of the chunk, `done` the text `"data: [DONE]\n\n"`. -/
inductive Frame where
  | data (chunk : StreamChunk)
  | done
  deriving DecidableEq, Repr

/-- The composite literal `StreamChunk{...}` built for the event `ev` at clock reading
`created`. -/
def chunk (model : String) (created : Int) (ev : dify.StreamEvent) : StreamChunk :=
  { ID := ev.MessageID, Object := "chat.completion.chunk", Created := created, Model := model,
    Choices := [{ Index := 0,
                   Delta := { Role := "", Content := ev.Answer },
                   FinishReason := none }] }

/-- The loop of `WriteStreamingResponse` and the final write; `k` counts the calls of
`fmt.Fprintf` made so far, `now k` is `time.Now().Unix()` at the k-th call.  The result is
the frames written and the error returned. -/
def writeLoop (wr : Nat → Option GoError) (now : Nat → Int) (model : String) :
    Nat → List dify.StreamEvent → List Frame × Option GoError
  | k, [] =>
    match wr k with
    | some err => ([], some err)
    | none => ([Frame.done], none)
  | k, ev :: rest =>
    match ev.Err with
    | some err => ([], some err)
    | none =>
      if ev.Event ≠ "message" ∧ ev.Event ≠ "agent_message" then
        writeLoop wr now model k rest
      else
        match wr k with
        | some err => ([], some err)
        | none =>
          let r := writeLoop wr now model (k + 1) rest
          (Frame.data (chunk model (now k) ev) :: r.1, r.2)

/-- The function `WriteStreamingResponse` of `openai/translate.go`. -/
def WriteStreamingResponse (wr : Nat → Option GoError) (now : Nat → Int) (model : String)
    (stream : List dify.StreamEvent) : List Frame × Option GoError :=
  writeLoop wr now model 0 stream

/-- The chunk frames of a list of token events, the first one written at call `k`. -/
def deltaFrames (now : Nat → Int) (model : String) : Nat → List dify.StreamEvent → List Frame
  | _, [] => []
  | k, ev :: rest => Frame.data (chunk model (now k) ev) :: deltaFrames now model (k + 1) rest

/-- The answer fragment a frame carries, if it is a chunk frame. -/
def Frame.content : Frame → Option String
  | .data c => some (String.join (c.Choices.map (fun ch => ch.Delta.Content)))
  | .done => none

end openai

namespace anthropic

/-- Incremental content of a stream event (`types.go`, `Delta`); the Go field `Type` is
written `Type_`. -/
structure Delta where
  Type_ : String
  Text : String
  deriving DecidableEq, Repr

/-- One Anthropic SSE event (`types.go`, `StreamEvent`); the Go field `Type` is written
`Type_`. -/
structure StreamEvent where
  Type_ : String
  Index : Int
  Delta : Option anthropic.Delta
  deriving DecidableEq, Repr

/-- A value of a `map[string]any` literal, the members in the order of the source. -/
inductive Any where
  | str (s : String)
  | int (n : Int)
  | map (m : List (String × Any))

/-- The payload handed to `writeSSEEvent`: a `StreamEvent` or a `map[string]any`. -/
inductive Payload where
  | event (e : StreamEvent)
  | map (m : List (String × Any))

/-- What one successful `fmt.Fprintf` of `writeSSEEvent` puts on the response: the format
`"event: %s\ndata: %s\n\n"` filled with the event name and the JSON of the payload. -/
structure Frame where
  event : String
  payload : Payload

/-- The function `writeSSEEvent`, as the k-th call of `fmt.Fprintf` on the writer. -/
def writeSSEEvent (wr : Nat → Option GoError) (k : Nat) (event : String)
    (payload : Payload) : Except GoError Frame :=
  match wr k with
  | some err => .error err
  | none => .ok { event := event, payload := payload }

/-- The literal `startEvt`. -/
def startEvt (model : String) : List (String × Any) :=
  [("type", .str "message_start"),
   ("message", .map [("id", .str ""), ("type", .str "message"), ("role", .str "assistant"),
                     ("model", .str model)])]

/-- The literal `blockStart`. -/
def blockStart : StreamEvent := { Type_ := "content_block_start", Index := 0, Delta := none }

/-- The literal `delta` built for the event `ev`. -/
def delta (ev : dify.StreamEvent) : StreamEvent :=
  { Type_ := "content_block_delta", Index := 0,
    Delta := some { Type_ := "text_delta", Text := ev.Answer } }

/-- The loop of `WriteStreamingResponse` and the two closing writes; `k` counts the calls
of `fmt.Fprintf` made so far. -/
def deltaLoop (wr : Nat → Option GoError) :
    Nat → List dify.StreamEvent → List Frame × Option GoError
  | k, [] =>
    match writeSSEEvent wr k "content_block_stop"
        (.map [("type", .str "content_block_stop"), ("index", .int 0)]) with
    | .error err => ([], some err)
    | .ok f1 =>
      match writeSSEEvent wr (k + 1) "message_stop" (.map [("type", .str "message_stop")]) with
      | .error err => ([f1], some err)
      | .ok f2 => ([f1, f2], none)
  | k, ev :: rest =>
    match ev.Err with
    | some err => ([], some err)
    | none =>
      if ev.Event ≠ "message" ∧ ev.Event ≠ "agent_message" then
        deltaLoop wr k rest
      else
        match writeSSEEvent wr k "content_block_delta" (.event (delta ev)) with
        | .error err => ([], some err)
        | .ok f =>
          let r := deltaLoop wr (k + 1) rest
          (f :: r.1, r.2)

/-- The function `WriteStreamingResponse` of `anthropic/translate.go`: the frames written
and the error returned. -/
def WriteStreamingResponse (wr : Nat → Option GoError) (model : String)
    (stream : List dify.StreamEvent) : List Frame × Option GoError :=
  match writeSSEEvent wr 0 "message_start" (.map (startEvt model)) with
  | .error err => ([], some err)
  | .ok f0 =>
    match writeSSEEvent wr 1 "content_block_start" (.event blockStart) with
    | .error err => ([f0], some err)
    | .ok f1 =>
      let r := deltaLoop wr 2 stream
      (f0 :: f1 :: r.1, r.2)

/-- The frame `message_start`. -/
def startFrame (model : String) : Frame :=
  { event := "message_start", payload := .map (startEvt model) }

/-- The frame `content_block_start`. -/
def blockStartFrame : Frame :=
  { event := "content_block_start", payload := .event blockStart }

/-- The frame `content_block_delta` of a token event. -/
def deltaFrame (ev : dify.StreamEvent) : Frame :=
  { event := "content_block_delta", payload := .event (delta ev) }

/-- The frame `content_block_stop`. -/
def blockStopFrame : Frame :=
  { event := "content_block_stop",
    payload := .map [("type", .str "content_block_stop"), ("index", .int 0)] }

/-- The frame `message_stop`. -/
def messageStopFrame : Frame :=
  { event := "message_stop", payload := .map [("type", .str "message_stop")] }

/-- The text a frame carries in its delta, if it has one. -/
def Frame.text (f : Frame) : Option String :=
  match f.payload with
  | .event e => e.Delta.map (fun d => d.Text)
  | .map _ => none

end anthropic

namespace gemini

/-- Text content (`types.go`, `Part`). -/
structure Part where
  Text : String
  deriving DecidableEq, Repr

/-- One turn of a conversation (`types.go`, `Content`). -/
structure Content where
  Role : String
  Parts : List Part
  deriving DecidableEq, Repr

/-- One response candidate (`types.go`, `Candidate`). -/
structure Candidate where
  Content : gemini.Content
  FinishReason : String
  Index : Int
  deriving DecidableEq, Repr

/-- Token counts (`types.go`, `UsageMetadata`). -/
structure UsageMetadata where
  PromptTokenCount : Int
  CandidatesTokenCount : Int
  TotalTokenCount : Int
  deriving DecidableEq, Repr

/-- One SSE payload (`types.go`, `StreamResponse`). -/
structure StreamResponse where
  Candidates : List Candidate
  UsageMetadata : Option gemini.UsageMetadata
  deriving DecidableEq, Repr

/-- What one successful `fmt.Fprintf` puts on the response: the format `"data: %s\n\n"`
filled with the JSON of the chunk. -/
inductive Frame where
  | data (chunk : StreamResponse)
  deriving DecidableEq, Repr

/-- The composite literal `StreamResponse{...}` built for the event `ev`. -/
def chunk (ev : dify.StreamEvent) : StreamResponse :=
  { Candidates := [{ Content := { Role := "model", Parts := [{ Text := ev.Answer }] },
                      FinishReason := "", Index := 0 }],
    UsageMetadata := none }

/-- The loop of `WriteStreamingResponse`; `k` counts the calls of `fmt.Fprintf` made so far.
The result is the frames written and the error returned. -/
def writeLoop (wr : Nat → Option GoError) :
    Nat → List dify.StreamEvent → List Frame × Option GoError
  | _, [] => ([], none)
  | k, ev :: rest =>
    match ev.Err with
    | some err => ([], some err)
    | none =>
      if ev.Event ≠ "message" ∧ ev.Event ≠ "agent_message" then
        writeLoop wr k rest
      else
        match wr k with
        | some err => ([], some err)
        | none =>
          let r := writeLoop wr (k + 1) rest
          (Frame.data (chunk ev) :: r.1, r.2)

/-- The function `WriteStreamingResponse` of `gemini/translate.go`. -/
def WriteStreamingResponse (wr : Nat → Option GoError)
    (stream : List dify.StreamEvent) : List Frame × Option GoError :=
  writeLoop wr 0 stream

end gemini

/-! ## Requests, credentials and blocking responses: definitions

Further conventions

* `json.NewDecoder(r.Body).Decode(&req)` is the parameter `decode` of `ToDifyRequest`.
* A Go run-time panic (an index out of range) is the result `none`.
* A handler returns the steps it took before replying (body decoding, upstream calls) and
  its reply; the upstream client is given by the two functions `sendBlocking` and
  `sendStreaming`.
-/

/-- A `map[string]any` value, the members in the order of the source. -/
abbrev GoMap := List (String × anthropic.Any)

namespace strings

/-- Character-list form of `strings.Contains`. -/
def containsChars : List Char → List Char → Bool
  | [], sub => sub.isEmpty
  | c :: l, sub => sub.isPrefixOf (c :: l) || containsChars l sub

/-- Go `strings.Contains`. -/
def Contains (s sub : String) : Bool := containsChars s.data sub.data

/-- Go `strings.HasSuffix`. -/
def HasSuffix (s suf : String) : Bool := suf.data.isSuffixOf s.data

end strings

namespace dify

/-- A file attachment (`types.go`, `FileInput`). -/
structure FileInput where
  Type_ : String
  TransferMethod : String
  URL : String
  UploadFileID : String

/-- The request sent to the upstream (`types.go`, `ChatRequest`). -/
structure ChatRequest where
  Inputs : GoMap
  Query : String
  ResponseMode : String
  ConversationID : String
  User : String
  Files : List FileInput

/-- The full upstream response of a blocking call (`types.go`, `BlockingResponse`). -/
structure BlockingResponse where
  MessageID : String
  ConversationID : String
  Mode : String
  Answer : String
  Metadata : GoMap
  CreatedAt : Int

end dify

namespace http

/-- The parts of `url.URL` a handler can look at. -/
structure URL where
  Path : String
  RawQuery : String

/-- An inbound request: `Header` is `r.Header.Get`, the first value of a header or the empty
string when it is absent. -/
structure Request where
  Header : String → String
  URL : http.URL
  Body : String

/-- The library table `http.StatusText`, on the codes the handlers use. -/
def StatusText : Nat → String
  | 400 => "Bad Request"
  | 401 => "Unauthorized"
  | 500 => "Internal Server Error"
  | 502 => "Bad Gateway"
  | 504 => "Gateway Timeout"
  | _ => ""

end http

namespace apierrors

/-- The body of an error reply (`errors.go`, `jsonError`). -/
structure jsonError where
  Error : String
  Message : String
  deriving DecidableEq, Repr

/-- What `WriteJSONError` does on the response writer: the header it sets, the status code
it passes to `WriteHeader` and the body it encodes. -/
structure ErrorReply where
  contentType : String
  statusCode : Nat
  body : jsonError
  deriving DecidableEq, Repr

/-- The function `WriteJSONError` of `errors.go`. -/
def WriteJSONError (statusCode : Nat) (message : String) : ErrorReply :=
  { contentType := "application/json", statusCode := statusCode,
    body := { Error := http.StatusText statusCode, Message := message } }

end apierrors

namespace httputil

/-- The key and user extracted from a request (`sse.go`, `Credentials`). -/
structure Credentials where
  APIKey : String
  User : String
  deriving DecidableEq, Repr

/-- The function `ExtractCredentials` of `sse.go`. -/
def ExtractCredentials (r : http.Request) (defaultUser : String) : Credentials :=
  let apiKey := strings.TrimSpace (r.Header "X-Dify-Api-Key")
  let apiKey :=
    if apiKey = "" then
      match strings.CutPrefix (r.Header "Authorization") "Bearer " with
      | some rest => strings.TrimSpace rest
      | none => apiKey
    else apiKey
  let user := strings.TrimSpace (r.Header "X-Dify-User")
  let user := if user = "" then defaultUser else user
  { APIKey := apiKey, User := user }

end httputil

namespace adapter

/-- A step a handler takes before it replies. -/
inductive Step where
  | decodeBody
  | sendBlocking (apiKey : String) (req : dify.ChatRequest)
  | sendStreaming (apiKey : String) (req : dify.ChatRequest)

/-- The reply of a handler: an error written by `WriteJSONError`, a blocking body, a
blocking body whose write failed (followed by the call of `WriteJSONError`), or the SSE
headers followed by the frames of a stream. -/
inductive Reply (B F : Type) where
  | error (e : apierrors.ErrorReply)
  | body (b : B)
  | writeFailed (e : apierrors.ErrorReply)
  | stream (frames : List F)

/-- The steps and the reply of one call of a handler. -/
structure Handled (B F : Type) where
  steps : List Step
  reply : Reply B F

/-- The text after the last newline of `s` (all of `s` when it has none). -/
def finalLine (s : String) : String :=
  ⟨(s.data.reverse.takeWhile (fun c => c ≠ '\n')).reverse⟩

end adapter

/-! ## The adapters: decoding, flattening, blocking encoding, handlers -/

namespace openai

/-- A chat message (`types.go`, `Message`). -/
structure Message where
  Role : String
  Content : String
  deriving DecidableEq, Repr

/-- The request body (`types.go`, `ChatCompletionRequest`). -/
structure ChatCompletionRequest where
  Model : String
  Messages : List Message
  Stream : Bool
  deriving DecidableEq, Repr

/-- One completion result (`types.go`, `Choice`). -/
structure Choice where
  Index : Int
  Message : openai.Message
  FinishReason : String
  deriving DecidableEq, Repr

/-- The blocking response (`types.go`, `ChatCompletionResponse`). -/
structure ChatCompletionResponse where
  ID : String
  Object : String
  Created : Int
  Model : String
  Choices : List Choice
  deriving DecidableEq, Repr

/-- The line `role: content` written for a message that is not the last one. -/
def line (m : Message) : String := m.Role ++ ": " ++ m.Content ++ "\n"

/-- The function `flattenMessages` of `openai/translate.go`: the query and the prior
messages; `none` is the index panic of `msgs[len(msgs)-1]` on an empty list. -/
def flattenMessages (msgs : List Message) : Option (String × List Message) :=
  match msgs with
  | [m] => some (m.Content, [])
  | _ =>
    match msgs.getLast? with
    | none => none
    | some last =>
      let prior := msgs.dropLast
      some (prior.foldl (fun sb m => sb ++ m.Role ++ ": " ++ m.Content ++ "\n") "" ++
        last.Content, prior)

/-- The function `ToDifyRequest` of `openai/translate.go`. -/
def ToDifyRequest (decode : String → Except GoError ChatCompletionRequest)
    (r : http.Request) (defaultUser : String) :
    Option (Except GoError (dify.ChatRequest × Bool)) :=
  match decode r.Body with
  | .error err => some (.error ("decode body: " ++ err))
  | .ok req =>
    if req.Messages.length = 0 then some (.error "messages must not be empty")
    else
      match flattenMessages req.Messages with
      | none => none
      | some (query, _) =>
        some (.ok ({ Inputs := [], Query := query, ResponseMode := "", ConversationID := "",
                     User := defaultUser, Files := [] }, req.Stream))

/-- The function `WriteBlockingResponse` of `openai/translate.go`: the value encoded on
the writer, or the error of the write. -/
def WriteBlockingResponse (wr : Nat → Option GoError) (created : Int)
    (resp : dify.BlockingResponse) (model : String) : Except GoError ChatCompletionResponse :=
  let out : ChatCompletionResponse :=
    { ID := resp.MessageID, Object := "chat.completion", Created := created, Model := model,
      Choices := [{ Index := 0,
                     Message := { Role := "assistant", Content := resp.Answer },
                     FinishReason := "stop" }] }
  match wr 0 with
  | some err => .error err
  | none => .ok out

/-- The function `writeUpstreamError` of `openai/handler.go`. -/
def writeUpstreamError (msg : GoError) : apierrors.ErrorReply :=
  if strings.Contains msg "context deadline exceeded" || strings.Contains msg "timeout" then
    apierrors.WriteJSONError 504 "upstream timeout"
  else
    apierrors.WriteJSONError 502 ("upstream error: " ++ msg)

/-- The method `Handler.ServeHTTP` of `openai/handler.go`; `none` is a panic. -/
def ServeHTTP (decode : String → Except GoError ChatCompletionRequest)
    (sendBlocking : String → dify.ChatRequest → Except GoError dify.BlockingResponse)
    (sendStreaming : String → dify.ChatRequest → Except GoError (List dify.StreamEvent))
    (wr : Nat → Option GoError) (now : Nat → Int) (defaultUser : String)
    (r : http.Request) : Option (adapter.Handled ChatCompletionResponse Frame) :=
  let creds := httputil.ExtractCredentials r defaultUser
  if creds.APIKey = "" then
    some { steps := [],
           reply := .error (apierrors.WriteJSONError 401
             "missing API key: provide X-Dify-Api-Key header or Authorization: Bearer <key>") }
  else
    match ToDifyRequest decode r creds.User with
    | none => none
    | some (.error err) =>
      some { steps := [.decodeBody], reply := .error (apierrors.WriteJSONError 400 err) }
    | some (.ok (difyReq, streaming)) =>
      if streaming then
        match sendStreaming creds.APIKey difyReq with
        | .error err =>
          some { steps := [.decodeBody, .sendStreaming creds.APIKey difyReq],
                 reply := .error (writeUpstreamError err) }
        | .ok stream =>
          some { steps := [.decodeBody, .sendStreaming creds.APIKey difyReq],
                 reply := .stream (WriteStreamingResponse wr now "dify" stream).1 }
      else
        match sendBlocking creds.APIKey difyReq with
        | .error err =>
          some { steps := [.decodeBody, .sendBlocking creds.APIKey difyReq],
                 reply := .error (writeUpstreamError err) }
        | .ok resp =>
          match WriteBlockingResponse wr (now 0) resp "dify" with
          | .ok out =>
            some { steps := [.decodeBody, .sendBlocking creds.APIKey difyReq],
                   reply := .body out }
          | .error _ =>
            some { steps := [.decodeBody, .sendBlocking creds.APIKey difyReq],
                   reply := .writeFailed
                     (apierrors.WriteJSONError 500 "failed to write response") }

end openai

namespace anthropic

/-- A chat message (`types.go`, `Message`). -/
structure Message where
  Role : String
  Content : String
  deriving DecidableEq, Repr

/-- The request body (`types.go`, `MessagesRequest`). -/
structure MessagesRequest where
  Model : String
  MaxTokens : Int
  Messages : List Message
  System : String
  Stream : Bool
  deriving DecidableEq, Repr

/-- A content block of a response (`types.go`, `Content`). -/
structure Content where
  Type_ : String
  Text : String
  deriving DecidableEq, Repr

/-- Token counts (`types.go`, `Usage`). -/
structure Usage where
  InputTokens : Int
  OutputTokens : Int
  deriving DecidableEq, Repr

/-- The blocking response (`types.go`, `MessagesResponse`). -/
structure MessagesResponse where
  ID : String
  Type_ : String
  Role : String
  Content : List anthropic.Content
  Model : String
  StopReason : String
  StopSequence : Option String
  Usage : anthropic.Usage
  deriving DecidableEq, Repr

/-- The line `role: content` written for a message that is not the last one. -/
def line (m : Message) : String := m.Role ++ ": " ++ m.Content ++ "\n"

/-- The function `flattenMessages` of `anthropic/translate.go`; `none` is the index panic
of `msgs[len(msgs)-1]` on an empty list. -/
def flattenMessages (msgs : List Message) (system : String) : Option String :=
  let sb := if system ≠ "" then "system: " ++ system ++ "\n" else ""
  match msgs with
  | [m] => if sb ≠ "" then some (sb ++ m.Content) else some m.Content
  | _ =>
    match msgs.getLast? with
    | none => none
    | some last =>
      some (msgs.dropLast.foldl (fun sb m => sb ++ m.Role ++ ": " ++ m.Content ++ "\n") sb ++
        last.Content)

/-- The function `ToDifyRequest` of `anthropic/translate.go`. -/
def ToDifyRequest (decode : String → Except GoError MessagesRequest)
    (r : http.Request) (defaultUser : String) :
    Option (Except GoError (dify.ChatRequest × Bool)) :=
  match decode r.Body with
  | .error err => some (.error ("decode body: " ++ err))
  | .ok req =>
    if req.Messages.length = 0 then some (.error "messages must not be empty")
    else
      match flattenMessages req.Messages req.System with
      | none => none
      | some query =>
        some (.ok ({ Inputs := [], Query := query, ResponseMode := "", ConversationID := "",
                     User := defaultUser, Files := [] }, req.Stream))

/-- The function `WriteBlockingResponse` of `anthropic/translate.go`: the value encoded on
the writer, or the error of the write. -/
def WriteBlockingResponse (wr : Nat → Option GoError)
    (resp : dify.BlockingResponse) (model : String) : Except GoError MessagesResponse :=
  let out : MessagesResponse :=
    { ID := resp.MessageID, Type_ := "message", Role := "assistant",
      Content := [{ Type_ := "text", Text := resp.Answer }],
      Model := model, StopReason := "end_turn", StopSequence := none,
      Usage := { InputTokens := 0, OutputTokens := 0 } }
  match wr 0 with
  | some err => .error err
  | none => .ok out

end anthropic

namespace gemini

/-- The system prompt (`types.go`, `SystemInstruction`). -/
structure SystemInstruction where
  Parts : List Part
  deriving DecidableEq, Repr

/-- The request body (`types.go`, `GenerateContentRequest`); an absent
`system_instruction` is the `nil` pointer, `none`. -/
structure GenerateContentRequest where
  Contents : List Content
  SystemInstruction : Option gemini.SystemInstruction
  deriving DecidableEq, Repr

/-- The blocking response (`types.go`, `GenerateContentResponse`). -/
structure GenerateContentResponse where
  Candidates : List Candidate
  UsageMetadata : gemini.UsageMetadata
  deriving DecidableEq, Repr

/-- The function `joinParts` of `gemini/translate.go`. -/
def joinParts (parts : List Part) : String :=
  String.join (parts.map (fun p => p.Text))

/-- The role written for a content that is not the last one: `model` becomes `assistant`. -/
def roleOf (c : Content) : String := if c.Role = "model" then "assistant" else c.Role

/-- The line `role: text` written for a content that is not the last one. -/
def line (c : Content) : String := roleOf c ++ ": " ++ joinParts c.Parts ++ "\n"

/-- The function `flattenContents` of `gemini/translate.go`; `none` is the index panic of
`contents[len(contents)-1]` on an empty list. -/
def flattenContents (contents : List Content) (sys : Option SystemInstruction) :
    Option String :=
  let sb :=
    match sys with
    | some si =>
      if si.Parts.length > 0 then "system: " ++ joinParts si.Parts ++ "\n" else ""
    | none => ""
  match contents with
  | [c] =>
    let text := joinParts c.Parts
    if sb ≠ "" then some (sb ++ text) else some text
  | _ =>
    match contents.getLast? with
    | none => none
    | some last =>
      some (contents.dropLast.foldl
        (fun sb c =>
          let role := if c.Role = "model" then "assistant" else c.Role
          sb ++ role ++ ": " ++ joinParts c.Parts ++ "\n") sb ++
        joinParts last.Parts)

/-- The function `ToDifyRequest` of `gemini/translate.go`. -/
def ToDifyRequest (decode : String → Except GoError GenerateContentRequest)
    (r : http.Request) (defaultUser : String) (streaming : Bool) :
    Option (Except GoError (dify.ChatRequest × Bool)) :=
  match decode r.Body with
  | .error err => some (.error ("decode body: " ++ err))
  | .ok req =>
    if req.Contents.length = 0 then some (.error "contents must not be empty")
    else
      match flattenContents req.Contents req.SystemInstruction with
      | none => none
      | some query =>
        some (.ok ({ Inputs := [], Query := query, ResponseMode := "", ConversationID := "",
                     User := defaultUser, Files := [] }, streaming))

/-- The function `WriteBlockingResponse` of `gemini/translate.go`: the value encoded on
the writer, or the error of the write. -/
def WriteBlockingResponse (wr : Nat → Option GoError)
    (resp : dify.BlockingResponse) : Except GoError GenerateContentResponse :=
  let out : GenerateContentResponse :=
    { Candidates := [{ Content := { Role := "model", Parts := [{ Text := resp.Answer }] },
                        FinishReason := "STOP", Index := 0 }],
      UsageMetadata := { PromptTokenCount := 0, CandidatesTokenCount := 0,
                         TotalTokenCount := 0 } }
  match wr 0 with
  | some err => .error err
  | none => .ok out

/-- The function `writeUpstreamError` of `gemini/handler.go`. -/
def writeUpstreamError (msg : GoError) : apierrors.ErrorReply :=
  if strings.Contains msg "context deadline exceeded" || strings.Contains msg "timeout" then
    apierrors.WriteJSONError 504 "upstream timeout"
  else
    apierrors.WriteJSONError 502 ("upstream error: " ++ msg)

/-- The method `Handler.serveHTTP` of `gemini/handler.go`; `none` is a panic. -/
def serveHTTP (decode : String → Except GoError GenerateContentRequest)
    (sendBlocking : String → dify.ChatRequest → Except GoError dify.BlockingResponse)
    (sendStreaming : String → dify.ChatRequest → Except GoError (List dify.StreamEvent))
    (wr : Nat → Option GoError) (defaultUser : String)
    (r : http.Request) (streaming : Bool) :
    Option (adapter.Handled GenerateContentResponse Frame) :=
  let creds := httputil.ExtractCredentials r defaultUser
  if creds.APIKey = "" then
    some { steps := [],
           reply := .error (apierrors.WriteJSONError 401
             "missing API key: provide X-Dify-Api-Key header or Authorization: Bearer <key>") }
  else
    match ToDifyRequest decode r creds.User streaming with
    | none => none
    | some (.error err) =>
      some { steps := [.decodeBody], reply := .error (apierrors.WriteJSONError 400 err) }
    | some (.ok (difyReq, isStream)) =>
      if isStream then
        match sendStreaming creds.APIKey difyReq with
        | .error err =>
          some { steps := [.decodeBody, .sendStreaming creds.APIKey difyReq],
                 reply := .error (writeUpstreamError err) }
        | .ok stream =>
          some { steps := [.decodeBody, .sendStreaming creds.APIKey difyReq],
                 reply := .stream (WriteStreamingResponse wr stream).1 }
      else
        match sendBlocking creds.APIKey difyReq with
        | .error err =>
          some { steps := [.decodeBody, .sendBlocking creds.APIKey difyReq],
                 reply := .error (writeUpstreamError err) }
        | .ok resp =>
          match WriteBlockingResponse wr resp with
          | .ok out =>
            some { steps := [.decodeBody, .sendBlocking creds.APIKey difyReq],
                   reply := .body out }
          | .error _ =>
            some { steps := [.decodeBody, .sendBlocking creds.APIKey difyReq],
                   reply := .writeFailed
                     (apierrors.WriteJSONError 500 "failed to write response") }

/-- What `Handler.Dispatch` does with a request: `http.NotFound`, or the result of
`serveHTTP`. -/
inductive Dispatched where
  | notFound
  | served (h : Option (adapter.Handled GenerateContentResponse Frame))

/-- The method `Handler.Dispatch` of `gemini/handler.go`. -/
def Dispatch (decode : String → Except GoError GenerateContentRequest)
    (sendBlocking : String → dify.ChatRequest → Except GoError dify.BlockingResponse)
    (sendStreaming : String → dify.ChatRequest → Except GoError (List dify.StreamEvent))
    (wr : Nat → Option GoError) (defaultUser : String)
    (r : http.Request) : Dispatched :=
  let path := r.URL.Path
  if strings.HasSuffix path ":streamGenerateContent" then
    .served (serveHTTP decode sendBlocking sendStreaming wr defaultUser r true)
  else if strings.HasSuffix path ":generateContent" then
    .served (serveHTTP decode sendBlocking sendStreaming wr defaultUser r false)
  else .notFound

end gemini

/-! ## Notions used to state the claims on the adapters -/

namespace strings

/-- The concatenation of a list of strings, in order. -/
def concat : List String → String
  | [] => ""
  | s :: rest => s ++ concat rest

end strings

namespace dify

/-- A well-formed upstream record of kind `error` carrying a status, a code and a message;
its `Err` is not set. -/
def errorRecord (status : Int) (code message : String) : StreamEvent :=
  { StreamEvent.zero with Event := "error", Status := status, Code := code,
                          Message := message }

end dify

namespace adapter

/-- The query of the request a call of `ToDifyRequest` returned, if it returned one. -/
def queryOf : Option (Except GoError (dify.ChatRequest × Bool)) → Option String
  | some (.ok (req, _)) => some req.Query
  | _ => none

/-- A request without any header. -/
def bareRequest (path rawQuery body : String) : http.Request :=
  { Header := fun _ => "", URL := { Path := path, RawQuery := rawQuery }, Body := body }

/-- The text of the reply without credentials. -/
def missingKey : String :=
  "missing API key: provide X-Dify-Api-Key header or Authorization: Bearer <key>"

end adapter

namespace anthropic

/-- The text `flattenMessages` puts before the messages for the system field `system`. -/
def systemText (system : String) : String :=
  if system ≠ "" then "system: " ++ system ++ "\n" else ""

end anthropic

namespace gemini

/-- The text `flattenContents` puts before the contents for the instruction `sys`. -/
def systemText (sys : Option SystemInstruction) : String :=
  match sys with
  | some si => if si.Parts.length > 0 then "system: " ++ joinParts si.Parts ++ "\n" else ""
  | none => ""

/-- The body of the blocking test request. -/
def sampleBody : String :=
  "\x7b\"contents\":[\x7b\"role\":\"user\",\"parts\":[\x7b\"text\":\"Say hello\"\x7d]\x7d]\x7d"

/-- The decoded form of `sampleBody`. -/
def sampleRequest : GenerateContentRequest :=
  { Contents := [{ Role := "user", Parts := [{ Text := "Say hello" }] }],
    SystemInstruction := none }

end gemini

/-! ## The upstream client: definitions

Further conventions

* The libraries and the network the client uses are the fields of `Env`: `json.Marshal`
  of the request, the error of `http.NewRequestWithContext`, the two calls of `Do`, the
  decoding of a blocking body and `json.Unmarshal` of a stream record.
* `SendBlocking` and `SendStreaming` receive the request by pointer: they return the
  request as it is after the call together with their result.
-/

namespace strings

/-- Go `strings.TrimRight`: drop the trailing characters that occur in `cutset`. -/
def TrimRight (s cutset : String) : String :=
  ⟨(s.data.reverse.dropWhile (fun c => cutset.data.contains c)).reverse⟩

end strings

namespace dify

/-- An upstream HTTP response as the client reads it: `Body` is what `io.ReadAll` returns,
`Lines` and `ScanErr` what a `bufio.Scanner` over the body delivers. -/
structure Response where
  StatusCode : Int
  Body : String
  Lines : List String
  ScanErr : Option GoError

/-- The HTTP request the client builds: method POST, the URL, the headers set and the
body. -/
structure Outgoing where
  URL : String
  Header : List (String × String)
  Body : String

/-- The libraries and the network. -/
structure Env where
  marshal : ChatRequest → Except GoError String
  newRequest : String → Option GoError
  doBlocking : Outgoing → Except GoError Response
  doStreaming : Outgoing → Except GoError Response
  decodeBlocking : String → Except GoError BlockingResponse
  unmarshal : String → Except GoError StreamEvent

/-- The part of `Client` the requests depend on (`client.go`, `Client`). -/
structure Client where
  chatURL : String
  deriving DecidableEq, Repr

/-- The endpoint computed by `NewClient` from the base URL. -/
def endpoint (baseURL : String) : String :=
  let chatURL := strings.TrimRight baseURL "/"
  if ¬ strings.HasSuffix chatURL "/v1/chat-messages" then chatURL ++ "/v1/chat-messages"
  else chatURL

/-- The function `NewClient` of `client.go` (the timeout and the proxy configure the
transport, which is part of `Env`). -/
def NewClient (baseURL : String) : Client := { chatURL := endpoint baseURL }

/-- The method `Client.SendBlocking` of `client.go`. -/
def SendBlocking (env : Env) (c : Client) (apiKey : String) (req : ChatRequest) :
    ChatRequest × Except GoError BlockingResponse :=
  let req := { req with ResponseMode := "blocking" }
  match env.marshal req with
  | .error err => (req, .error ("marshal request: " ++ err))
  | .ok body =>
    match env.newRequest c.chatURL with
    | some err => (req, .error ("build request: " ++ err))
    | none =>
      let header :=
        [("Content-Type", "application/json"), ("Authorization", "Bearer " ++ apiKey)] ++
          (if req.User ≠ "" then [("AIGC-USER", req.User)] else [])
      match env.doBlocking { URL := c.chatURL, Header := header, Body := body } with
      | .error err => (req, .error ("dify request: " ++ err))
      | .ok resp =>
        if resp.StatusCode < 200 ∨ resp.StatusCode ≥ 300 then
          (req, .error ("dify " ++ toString resp.StatusCode ++ ": " ++ resp.Body))
        else
          match env.decodeBlocking resp.Body with
          | .error err => (req, .error ("decode response: " ++ err))
          | .ok result => (req, .ok result)

/-- The method `Client.SendStreaming` of `client.go`; the channel returned is the list of
the events the drainer forwards from `ReadStream` when it is drained to its close. -/
def SendStreaming (env : Env) (c : Client) (apiKey : String) (req : ChatRequest) :
    ChatRequest × Except GoError (List StreamEvent) :=
  let req := { req with ResponseMode := "streaming" }
  match env.marshal req with
  | .error err => (req, .error ("marshal request: " ++ err))
  | .ok body =>
    match env.newRequest c.chatURL with
    | some err => (req, .error ("build request: " ++ err))
    | none =>
      let header :=
        [("Content-Type", "application/json"), ("Authorization", "Bearer " ++ apiKey),
         ("Accept", "text/event-stream")] ++
          (if req.User ≠ "" then [("AIGC-USER", req.User)] else [])
      match env.doStreaming { URL := c.chatURL, Header := header, Body := body } with
      | .error err => (req, .error ("dify request: " ++ err))
      | .ok resp =>
        if resp.StatusCode < 200 ∨ resp.StatusCode ≥ 300 then
          (req, .error ("dify " ++ toString resp.StatusCode ++ ": " ++ resp.Body))
        else
          (req, .ok (ReadStream env.unmarshal resp.Lines resp.ScanErr))

end dify

/-! ## The streaming session: the two goroutines and their channels

`SendStreaming` starts a drainer goroutine that forwards the events of `ReadStream`, itself
a goroutine, to the channel it returns.  Both channels are made with capacity 16.  The
session is a transition system: `step` is one action of one goroutine, `none` when that
action cannot be taken in the state (a send on a full channel, a receive on an empty one
block).
-/

namespace dify

/-- The capacity of `make(chan StreamEvent, 16)`. -/
def chanCap : Nat := 16

/-- Where the drainer goroutine of `SendStreaming` stands: at the `range` over the inner
channel, at `ch <- ev`, after `close(ch)` with the deferred call still to run, or after
`resp.Body.Close()`. -/
inductive Drainer where
  | receiving
  | sending (ev : StreamEvent)
  | closing
  | returned
  deriving DecidableEq, Repr

/-- The number of events the drainer holds. -/
def Drainer.holding : Drainer → Nat
  | .sending _ => 1
  | _ => 0

/-- The state of a streaming session. -/
structure Session where
  /-- The events the goroutine of `ReadStream` still has to send. -/
  source : List StreamEvent
  /-- The buffer of the channel of `ReadStream`. -/
  inner : List StreamEvent
  /-- The channel of `ReadStream` is closed. -/
  innerClosed : Bool
  drainer : Drainer
  /-- The buffer of the channel `SendStreaming` returned. -/
  out : List StreamEvent
  outClosed : Bool
  /-- The number of calls of `resp.Body.Close()`. -/
  closes : Nat
  /-- The number of events the consumer still receives before it returns. -/
  budget : Nat
  received : List StreamEvent
  deriving Repr

/-- The actions of the three parties. -/
inductive Action where
  | produce
  | closeInner
  | recv
  | send
  | leave
  | close
  | consume
  deriving DecidableEq, Repr

/-- One action, if it can be taken: `produce` is `ch <- ev` in `ReadStream`, `closeInner`
its deferred `close(ch)`, `recv` and `leave` the `range inner` of the drainer, `send` its
`ch <- ev`, `leave` also its `close(ch)`, `close` its deferred `resp.Body.Close()`,
`consume` one receive of the consumer. -/
def step (a : Action) (s : Session) : Option Session :=
  match a with
  | .produce =>
    match s.source with
    | e :: rest =>
      if s.inner.length < chanCap then some { s with source := rest, inner := s.inner ++ [e] }
      else none
    | [] => none
  | .closeInner =>
    match s.source with
    | [] => if s.innerClosed then none else some { s with innerClosed := true }
    | _ :: _ => none
  | .recv =>
    match s.drainer, s.inner with
    | .receiving, e :: rest => some { s with inner := rest, drainer := .sending e }
    | _, _ => none
  | .send =>
    match s.drainer with
    | .sending e =>
      if s.out.length < chanCap then some { s with out := s.out ++ [e], drainer := .receiving }
      else none
    | _ => none
  | .leave =>
    match s.drainer, s.inner with
    | .receiving, [] =>
      if s.innerClosed then some { s with drainer := .closing, outClosed := true } else none
    | _, _ => none
  | .close =>
    match s.drainer with
    | .closing => some { s with drainer := .returned, closes := s.closes + 1 }
    | _ => none
  | .consume =>
    match s.out, s.budget with
    | e :: rest, b + 1 =>
      some { s with out := rest, budget := b, received := s.received ++ [e] }
    | _, _ => none

/-- A schedule of actions, taken in order; `none` when one of them cannot be taken. -/
def run : List Action → Session → Option Session
  | [], s => some s
  | a :: rest, s =>
    match step a s with
    | some t => run rest t
    | none => none

/-- The session right after `SendStreaming` returned its channel: `events` is what
`ReadStream` sends, `m` the number of events the consumer receives before it returns. -/
def Session.init (events : List StreamEvent) (m : Nat) : Session :=
  { source := events, inner := [], innerClosed := false, drainer := .receiving, out := [],
    outClosed := false, closes := 0, budget := m, received := [] }

/-- No action can be taken: every goroutine has returned or is blocked for ever. -/
def Session.stuck (s : Session) : Prop := ∀ a, step a s = none

/-- The invariant of a session of `n` events whose consumer receives at most `m`. -/
def Session.Inv (n m : Nat) (s : Session) : Prop :=
  s.source.length + s.inner.length + s.drainer.holding + s.out.length + s.received.length = n ∧
    s.received.length + s.budget = m ∧
    s.out.length ≤ chanCap ∧
    (s.innerClosed = true → s.source = []) ∧
    ((s.drainer = .closing ∨ s.drainer = .returned) → s.source = [] ∧ s.inner = []) ∧
    (s.drainer = .returned → s.closes = 1) ∧
    (s.drainer ≠ .returned → s.closes = 0)

end dify

namespace gemini

/-- The text a candidate frame carries. -/
def Frame.text : Frame → String
  | .data c => String.join (c.Candidates.map (fun cand => joinParts cand.Content.Parts))

end gemini

namespace adapter

/-- The events of a sequence that come before its first event with `Err` set. -/
def beforeErr (evs : List dify.StreamEvent) : List dify.StreamEvent :=
  evs.takeWhile (fun e => e.Err.isNone)

/-- The OpenAI message with the role and content of an Anthropic message. -/
def asOpenAI (m : anthropic.Message) : openai.Message :=
  { Role := m.Role, Content := m.Content }

end adapter

namespace adapter

/-- The error reply of a handler, if its reply is one written by `WriteJSONError`. -/
def replyError {B F : Type} : Option (Handled B F) → Option apierrors.ErrorReply
  | some { steps := _, reply := .error e } => some e
  | _ => none

end adapter

namespace dify

/-- An environment whose upstream answers every request with `resp`; the request always
marshals and builds, a blocking body never decodes. -/
def constEnv (resp : Response) : Env :=
  { marshal := fun _ => .ok "", newRequest := fun _ => none,
    doBlocking := fun _ => .ok resp, doStreaming := fun _ => .ok resp,
    decodeBlocking := fun _ => .error "unexpected end of JSON input",
    unmarshal := json.jsonUnmarshal }

/-- An upstream response with status `s` and body `b`. -/
def plainResponse (s : Int) (b : String) : Response :=
  { StatusCode := s, Body := b, Lines := [b], ScanErr := none }

/-- A request as `ToDifyRequest` builds it, with query `q` and user `u`. -/
def plainRequest (q u : String) : ChatRequest :=
  { Inputs := [], Query := q, ResponseMode := "", ConversationID := "", User := u,
    Files := [] }

end dify

namespace adapter

/-- A request whose only header is `Authorization: Bearer ` followed by `key`. -/
def bearerRequest (key path body : String) : http.Request :=
  { Header := fun k => if k = "Authorization" then "Bearer " ++ key else "",
    URL := { Path := path, RawQuery := "" }, Body := body }

end adapter

namespace openai

/-- The decoded single-message, non-streaming test request. -/
def sampleChat : ChatCompletionRequest :=
  { Model := "gpt-4", Messages := [{ Role := "user", Content := "Say hello" }],
    Stream := false }

end openai

namespace dify

/-- A schedule for a stream of 18 events whose consumer returns after the first one: the
first event is passed on and received, sixteen more fill the returned channel, the last one
stays with the drainer, and `ReadStream` closes its channel. -/
def abandonedSchedule : List Action :=
  [.produce, .recv, .send, .consume] ++
    (List.replicate 16 [Action.produce, Action.recv, Action.send]).flatten ++
    [.produce, .recv, .closeInner]

end dify

/-! ## The upstream event parser -/

namespace strings

theorem cutChars_append (pre l : List Char) : cutChars (pre ++ l) pre = some l := by
  induction pre with
  | nil => cases l <;> rfl
  | cons p pre ih => simp [cutChars, ih]

theorem CutPrefix_append (pre s : String) : CutPrefix (pre ++ s) pre = some s := by
  simp [CutPrefix, String.data_append, cutChars_append]

end strings

namespace dify

open strings

theorem readLoop_data (u : String → Except GoError StreamEvent) (se : Option GoError)
    (d p : String) (rest : List String) :
    readLoop u se d (("data:" ++ p) :: rest) = readLoop u se (TrimSpace p) rest := by
  rw [readLoop, CutPrefix_append]

theorem readLoop_blank_ok (u : String → Except GoError StreamEvent) (se : Option GoError)
    (d : String) (rest : List String) (e : StreamEvent)
    (h1 : d ≠ "") (h2 : d ≠ "[DONE]") (h3 : u d = .ok e) :
    readLoop u se d ("" :: rest) = { e with Err := none } :: readLoop u se "" rest := by
  rw [readLoop]
  have hc : CutPrefix "" "data:" = none := by decide
  simp [hc, h1, h2, h3]

theorem readLoop_blank_error (u : String → Except GoError StreamEvent) (se : Option GoError)
    (d : String) (rest : List String) (err : GoError)
    (h1 : d ≠ "") (h2 : d ≠ "[DONE]") (h3 : u d = .error err) :
    readLoop u se d ("" :: rest) = [errEvent err] := by
  rw [readLoop]
  have hc : CutPrefix "" "data:" = none := by decide
  simp [hc, h1, h2, h3]

theorem readLoop_blank_done (u : String → Except GoError StreamEvent) (se : Option GoError)
    (rest : List String) :
    readLoop u se "[DONE]" ("" :: rest) = readLoop u se "" rest := by
  rw [readLoop]
  have hc : CutPrefix "" "data:" = none := by decide
  simp [hc]

theorem readLoop_recordLines (u : String → Except GoError StreamEvent) (se : Option GoError)
    (recs : List (String × StreamEvent)) (h : ∀ r ∈ recs, Decodes u r.1 r.2)
    (d : String) (rest : List String) :
    readLoop u se d (recordLines recs ++ rest) =
      recs.map Prod.snd ++ readLoop u se (if recs = [] then d else "") rest := by
  induction recs generalizing d with
  | nil => simp [recordLines]
  | cons r rs ih =>
    obtain ⟨h1, h2, h3, h4⟩ := h r (List.mem_cons_self _ _)
    have hrs : ∀ x ∈ rs, Decodes u x.1 x.2 := fun x hx => h x (List.mem_cons_of_mem _ hx)
    have he : ({ r.2 with Err := none } : StreamEvent) = r.2 := by
      cases hr : r.2
      rw [hr] at h4
      simp at h4
      simp [h4]
    simp only [recordLines, List.cons_append, List.map_cons]
    rw [readLoop_data, readLoop_blank_ok u se _ _ r.2 h1 h2 h3, ih hrs, he]
    by_cases hn : rs = [] <;> simp [hn]

/-- The parser is the block-wise reading of the input: it applies `emit` to the contents
of the complete blocks. -/
theorem readLoop_eq_emit (u : String → Except GoError StreamEvent) (se : Option GoError)
    (lines : List String) (d : String) :
    readLoop u se d lines = emit u se (contents d lines) := by
  induction lines generalizing d with
  | nil => simp [readLoop, contents, emit]
  | cons line rest ih =>
    rw [readLoop, contents]
    cases hc : CutPrefix line "data:" with
    | some r => simp [ih]
    | none =>
      by_cases hb : line = "" ∧ d ≠ ""
      · simp only [hb, and_self, if_true, ne_eq, not_false_eq_true, emit]
        by_cases hd : d = "[DONE]"
        · simp [hd, ih]
        · simp only [hd, if_false]
          cases u d <;> simp [ih]
      · simp only [hb, if_false, ih]

end dify

namespace dify

open strings

theorem readLoop_append_congr (u : String → Except GoError StreamEvent) (se : Option GoError)
    (a b : List String) (h : ∀ d, readLoop u se d a = readLoop u se d b)
    (pre : List String) (d : String) :
    readLoop u se d (pre ++ a) = readLoop u se d (pre ++ b) := by
  induction pre generalizing d with
  | nil => simpa using h d
  | cons line rest ih =>
    simp only [List.cons_append]
    rw [readLoop, readLoop]
    simp only [ih]

theorem readLoop_data_run (u : String → Except GoError StreamEvent) (se : Option GoError)
    (ps : List String) (p : String) (rest : List String) (d : String) :
    readLoop u se d (ps.map (fun q => "data:" ++ q) ++ ("data:" ++ p) :: rest) =
      readLoop u se d (("data:" ++ p) :: rest) := by
  induction ps generalizing d with
  | nil => rfl
  | cons q qs ih =>
    simp only [List.map_cons, List.cons_append]
    rw [readLoop_data, ih, readLoop_data, readLoop_data]

theorem contents_data (d p : String) (rest : List String) :
    contents d (("data:" ++ p) :: rest) = contents (TrimSpace p) rest := by
  rw [contents, CutPrefix_append]

theorem contents_data_run (ps : List String) (p : String) (rest : List String) (d : String) :
    contents d (ps.map (fun q => "data:" ++ q) ++ ("data:" ++ p) :: rest) =
      contents (TrimSpace p) rest := by
  induction ps generalizing d with
  | nil => exact contents_data d p rest
  | cons q qs ih =>
    simp only [List.map_cons, List.cons_append]
    rw [contents_data, ih]

theorem readLoop_doneBlock (u : String → Except GoError StreamEvent) (se : Option GoError)
    (rest : List String) (d : String) :
    readLoop u se d (doneBlock ++ rest) = readLoop u se "" rest := by
  have hd : doneBlock ++ rest = ("data:" ++ " [DONE]") :: "" :: rest := by
    simp only [doneBlock, List.cons_append, List.nil_append]
    congr 1
  have ht : TrimSpace " [DONE]" = "[DONE]" := by decide
  rw [hd, readLoop_data, ht, readLoop_blank_done]

theorem readLoop_insert_done (u : String → Except GoError StreamEvent) (se : Option GoError)
    (pre rest : List String) (d : String) (h : pending d pre = "") :
    readLoop u se d (pre ++ doneBlock ++ rest) = readLoop u se d (pre ++ rest) := by
  induction pre generalizing d with
  | nil =>
    simp only [pending] at h
    subst h
    simpa using readLoop_doneBlock u se rest ""
  | cons line more ih =>
    simp only [List.cons_append]
    rw [pending] at h
    rw [readLoop, readLoop]
    cases hc : CutPrefix line "data:" with
    | some r =>
      rw [hc] at h
      simpa using ih _ h
    | none =>
      rw [hc] at h
      by_cases hb : line = "" ∧ d ≠ ""
      · simp only [hb, and_self, if_true, ne_eq, not_false_eq_true] at h ⊢
        have h0 := ih "" h
        simp only [List.append_assoc] at h0 ⊢
        simp only [h0]
      · simp only [hb, if_false] at h ⊢
        simpa using ih d h

theorem readLoop_trailing_data (u : String → Except GoError StreamEvent)
    (lines : List String) (p : String) (d : String) :
    readLoop u none d (lines ++ ["data:" ++ p]) = readLoop u none d lines := by
  induction lines generalizing d with
  | nil =>
    simp only [List.nil_append]
    rw [readLoop_data]
    simp [readLoop]
  | cons line rest ih =>
    simp only [List.cons_append]
    rw [readLoop, readLoop]
    simp only [ih]

theorem emit_wellFormed (u : String → Except GoError StreamEvent) (se : Option GoError)
    (bs : List String) (h : ∀ b ∈ bs, b = "[DONE]" ∨ ∃ e, u b = .ok e) :
    emit u se bs = events u bs ++ emit u se [] := by
  induction bs with
  | nil => simp [events]
  | cons b bs ih =>
    have hbs : ∀ x ∈ bs, x = "[DONE]" ∨ ∃ e, u x = .ok e :=
      fun x hx => h x (List.mem_cons_of_mem _ hx)
    have ih1 := ih hbs
    unfold events at ih1 ⊢
    rw [emit]
    by_cases hd : b = "[DONE]"
    · simp [hd, ih1]
    · rcases h b (List.mem_cons_self _ _) with h1 | ⟨e, he⟩
      · exact absurd h1 hd
      · simp [hd, he, ih1]

theorem events_no_err (u : String → Except GoError StreamEvent) (bs : List String) :
    ∀ e ∈ events u bs, e.Err = none := by
  intro e he
  unfold events at he
  rw [List.mem_filterMap] at he
  obtain ⟨b, _, hb⟩ := he
  by_cases hd : b = "[DONE]"
  · simp [hd] at hb
  · simp only [hd, if_false] at hb
    cases hu : u b with
    | error err => simp [hu] at hb
    | ok ev =>
      simp only [hu, Option.some.injEq] at hb
      rw [← hb]

end dify

/-! ### Claims on the parser -/

namespace dify

open strings

/-- C1. For every finite list of well-formed records, the lines `data:` record, blank,
for each record in turn, optionally followed by the block `data: [DONE]`, with a clean
end of input, make `ReadStream` send exactly the events of the records, in their order,
and none of them has `Err` set. -/
theorem ReadStream_wellFormed_blocks (u : String → Except GoError StreamEvent)
    (recs : List (String × StreamEvent)) (done : Bool)
    (h : ∀ r ∈ recs, Decodes u r.1 r.2) :
    ReadStream u (recordLines recs ++ (if done then doneBlock else [])) none =
        recs.map Prod.snd ∧
      ∀ e ∈ ReadStream u (recordLines recs ++ (if done then doneBlock else [])) none,
        e.Err = none := by
  have key : ReadStream u (recordLines recs ++ (if done then doneBlock else [])) none =
      recs.map Prod.snd := by
    unfold ReadStream
    rw [readLoop_recordLines u none recs h]
    cases done
    · simp [readLoop]
    · have hd := readLoop_doneBlock u none [] (if recs = [] then "" else "")
      simp only [List.append_nil] at hd
      rw [if_pos rfl, hd]
      simp [readLoop]
  refine ⟨key, ?_⟩
  rw [key]
  intro e he
  obtain ⟨r, hr, rfl⟩ := List.mem_map.mp he
  exact (h r hr).2.2.2

/-- C1, witness: the blocks with answers `Hel` and `lo` followed by `data: [DONE]` give
exactly the two token events, in that order. -/
theorem ReadStream_wellFormed_blocks_witness :
    ReadStream json.jsonUnmarshal
      [("data: " ++ sampleHel), "",
       ("data: " ++ sampleLo), "",
       "data: [DONE]", ""] none = [tokenEvent "Hel", tokenEvent "lo"] :=
  (ReadStream_wellFormed_blocks json.jsonUnmarshal
    [((" " ++ sampleHel), tokenEvent "Hel"),
     ((" " ++ sampleLo), tokenEvent "lo")] true
    (by
      intro r hr
      simp only [List.mem_cons, List.mem_singleton, List.not_mem_nil, or_false] at hr
      rcases hr with rfl | rfl
      · exact ⟨by decide, by decide, by rfl, by rfl⟩
      · exact ⟨by decide, by decide, by rfl, by rfl⟩)).1

/-- C2. When k well-formed blocks are followed by a block whose content does not decode,
`ReadStream` sends the k events, then exactly one event with `Err` set (the decoding
failure), and nothing more, whatever lines follow the malformed block and however the
input ends. -/
theorem ReadStream_malformed_block (u : String → Except GoError StreamEvent)
    (recs : List (String × StreamEvent)) (p : String) (err : GoError)
    (rest : List String) (se : Option GoError)
    (h : ∀ r ∈ recs, Decodes u r.1 r.2) (hp : Malformed u p err) :
    ReadStream u (recordLines recs ++ ("data:" ++ p) :: "" :: rest) se =
      recs.map Prod.snd ++ [errEvent err] := by
  obtain ⟨h1, h2, h3⟩ := hp
  unfold ReadStream
  rw [readLoop_recordLines u se recs h, readLoop_data, readLoop_blank_error u se _ _ err h1 h2 h3]

/-- C2, witness: `data: {not json}`, a blank line and then a well-formed block give the
single error event; the well-formed block is not decoded. -/
theorem ReadStream_malformed_block_witness :
    ReadStream json.jsonUnmarshal
      [("data: " ++ sampleBad), "", ("data: " ++ sampleLo), ""] none =
      [errEvent "invalid character in JSON object"] :=
  ReadStream_malformed_block json.jsonUnmarshal [] (" " ++ sampleBad)
    "invalid character in JSON object"
    [("data: " ++ sampleLo), ""] none
    (by intro r hr; cases hr)
    ⟨by decide, by decide, by rfl⟩

/-- C3, as stated, fails: a record split over two `data:` lines is not decoded from both.
The block closed by the blank line has the content of its last `data:` line only, and the
parser, handed that remainder, reports a failure. -/
theorem ReadStream_split_record_counterexample :
    contents "" [("data: " ++ splitHead), ("data: " ++ splitTail), ""] =
        [splitTail] ∧
      ReadStream json.jsonUnmarshal
        [("data: " ++ splitHead), ("data: " ++ splitTail), ""] none =
        [errEvent "invalid character looking for beginning of value"] := by
  constructor <;> decide

/-- C3, amended. `ReadStream` keeps the last `data:` line of a block only: when a block has
several `data:` lines before its blank line, the earlier ones have no effect on the events
sent, and the content of the block is the trimmed payload of the last line. -/
theorem ReadStream_last_data_line (u : String → Except GoError StreamEvent)
    (se : Option GoError) (pre ps : List String) (p : String) (rest : List String) :
    ReadStream u (pre ++ (ps.map (fun q => "data:" ++ q) ++ ("data:" ++ p) :: "" :: rest)) se =
        ReadStream u (pre ++ ("data:" ++ p) :: "" :: rest) se ∧
      contents "" (ps.map (fun q => "data:" ++ q) ++ ["data:" ++ p, ""]) =
        if TrimSpace p = "" then [] else [TrimSpace p] := by
  constructor
  · unfold ReadStream
    exact readLoop_append_congr u se _ _ (fun d => readLoop_data_run u se ps p _ d) pre ""
  · rw [contents_data_run, contents]
    have hc : CutPrefix "" "data:" = none := by decide
    by_cases ht : TrimSpace p = "" <;> simp [hc, ht, contents]

/-- C4. A complete block `data: [DONE]` sends no event and does not stop the parser:
inserting its two lines at a position where no data line is pending leaves the events
sent unchanged (read from right to left: so does removing them). -/
theorem ReadStream_done_block_neutral (u : String → Except GoError StreamEvent)
    (se : Option GoError) (pre rest : List String) (h : pending "" pre = "") :
    ReadStream u (pre ++ doneBlock ++ rest) se = ReadStream u (pre ++ rest) se := by
  unfold ReadStream
  exact readLoop_insert_done u se pre rest "" h

/-- C4, witness: the sentinel block between two well-formed blocks. -/
theorem ReadStream_done_block_neutral_witness :
    ReadStream json.jsonUnmarshal
      ([("data: " ++ sampleHel), ""] ++ doneBlock ++
        [("data: " ++ sampleLo), ""]) none =
      ReadStream json.jsonUnmarshal
        ([("data: " ++ sampleHel), ""] ++
          [("data: " ++ sampleLo), ""]) none :=
  ReadStream_done_block_neutral json.jsonUnmarshal none
    [("data: " ++ sampleHel), ""]
    [("data: " ++ sampleLo), ""] (by decide)

/-- C5. When every complete block of the lines delivered is well-formed (the sentinel or a
record that decodes), a scanner that fails with the error `c` makes `ReadStream` send the
events of the complete blocks in order and then exactly one event whose `Err` is `c`; with
a clean end of input it sends the events of the blocks alone, none with `Err` set. -/
theorem ReadStream_scanner_error (u : String → Except GoError StreamEvent)
    (lines : List String) (c : GoError)
    (h : ∀ b ∈ contents "" lines, b = "[DONE]" ∨ ∃ e, u b = .ok e) :
    ReadStream u lines (some c) = events u (contents "" lines) ++ [errEvent c] ∧
      ReadStream u lines none = events u (contents "" lines) ∧
      ∀ e ∈ ReadStream u lines none, e.Err = none := by
  have h1 : ReadStream u lines (some c) = events u (contents "" lines) ++ [errEvent c] := by
    unfold ReadStream
    rw [readLoop_eq_emit, emit_wellFormed u (some c) _ h]
    simp [emit]
  have h2 : ReadStream u lines none = events u (contents "" lines) := by
    unfold ReadStream
    rw [readLoop_eq_emit, emit_wellFormed u none _ h]
    simp [emit]
  refine ⟨h1, h2, ?_⟩
  rw [h2]
  exact events_no_err u _

/-- C5, witness: one record, the sentinel, then a line cut short by a read failure. -/
theorem ReadStream_scanner_error_witness :
    ReadStream json.jsonUnmarshal
      [("data: " ++ sampleHel), "", "data: [DONE]", "",
       ("data: " ++ cutShort)] (some "unexpected EOF") =
      [tokenEvent "Hel", errEvent "unexpected EOF"] := by
  have hc : contents ""
      [("data: " ++ sampleHel), "", "data: [DONE]", "",
       ("data: " ++ cutShort)] = [sampleHel, "[DONE]"] := by
    decide
  have hw := (ReadStream_scanner_error json.jsonUnmarshal
    [("data: " ++ sampleHel), "", "data: [DONE]", "",
     ("data: " ++ cutShort)] "unexpected EOF"
    (by
      rw [hc]
      intro b hb
      simp only [List.mem_cons, List.mem_singleton, List.not_mem_nil, or_false] at hb
      rcases hb with rfl | rfl
      · exact Or.inr ⟨tokenEvent "Hel", by rfl⟩
      · exact Or.inl rfl)).1
  rw [hw, hc]
  decide

/-- C6. A trailing `data:` line with no blank line after it is dropped silently: with a
clean end of input, appending such a line, whatever its payload, leaves the events sent
unchanged. -/
theorem ReadStream_trailing_data_dropped (u : String → Except GoError StreamEvent)
    (lines : List String) (p : String) :
    ReadStream u (lines ++ ["data:" ++ p]) none = ReadStream u lines none := by
  unfold ReadStream
  exact readLoop_trailing_data u lines p ""

end dify

/-! ## The streaming encoders -/

namespace dify

theorem tokens_cons_of_token (ev : StreamEvent) (rest : List StreamEvent)
    (h : ¬ (ev.Event ≠ "message" ∧ ev.Event ≠ "agent_message")) :
    tokens (ev :: rest) = ev :: tokens rest := by
  have ht : isToken ev = true := by
    unfold isToken
    by_cases h1 : ev.Event = "message"
    · simp [h1]
    · by_cases h2 : ev.Event = "agent_message"
      · simp [h2]
      · exact absurd ⟨h1, h2⟩ h
  simp [tokens, List.filter_cons, ht]

theorem tokens_cons_of_other (ev : StreamEvent) (rest : List StreamEvent)
    (h : ev.Event ≠ "message" ∧ ev.Event ≠ "agent_message") :
    tokens (ev :: rest) = tokens rest := by
  have ht : isToken ev = false := by
    unfold isToken
    simp [h.1, h.2]
  simp [tokens, List.filter_cons, ht]

end dify

namespace openai

open dify

theorem openai_writeLoop_append (wr : Nat → Option GoError) (now : Nat → Int) (model : String)
    (hw : ∀ k, wr k = none) (pre rest : List dify.StreamEvent)
    (hpre : ∀ x ∈ pre, x.Err = none) (k : Nat) :
    writeLoop wr now model k (pre ++ rest) =
      (deltaFrames now model k (tokens pre) ++
          (writeLoop wr now model (k + (tokens pre).length) rest).1,
        (writeLoop wr now model (k + (tokens pre).length) rest).2) := by
  induction pre generalizing k with
  | nil => simp [tokens, deltaFrames]
  | cons ev more ih =>
    have hev : ev.Err = none := hpre ev (List.mem_cons_self _ _)
    have hmore : ∀ x ∈ more, x.Err = none := fun x hx => hpre x (List.mem_cons_of_mem _ hx)
    simp only [List.cons_append]
    rw [writeLoop]
    by_cases ht : ev.Event ≠ "message" ∧ ev.Event ≠ "agent_message"
    · rw [tokens_cons_of_other ev more ht]
      simp only [hev, ht, and_self, if_true, ne_eq, not_false_eq_true]
      exact ih hmore k
    · rw [tokens_cons_of_token ev more ht]
      simp only [hev, ht, if_false, hw k, deltaFrames, List.length_cons, List.cons_append]
      rw [ih hmore (k + 1)]
      have hk : k + 1 + (tokens more).length = k + ((tokens more).length + 1) := by omega
      rw [hk]

end openai

namespace anthropic

open dify

theorem anthropic_deltaLoop_append (wr : Nat → Option GoError)
    (hw : ∀ k, wr k = none) (pre rest : List dify.StreamEvent)
    (hpre : ∀ x ∈ pre, x.Err = none) (k : Nat) :
    deltaLoop wr k (pre ++ rest) =
      ((tokens pre).map deltaFrame ++ (deltaLoop wr (k + (tokens pre).length) rest).1,
        (deltaLoop wr (k + (tokens pre).length) rest).2) := by
  induction pre generalizing k with
  | nil => simp [tokens]
  | cons ev more ih =>
    have hev : ev.Err = none := hpre ev (List.mem_cons_self _ _)
    have hmore : ∀ x ∈ more, x.Err = none := fun x hx => hpre x (List.mem_cons_of_mem _ hx)
    simp only [List.cons_append]
    rw [deltaLoop]
    by_cases ht : ev.Event ≠ "message" ∧ ev.Event ≠ "agent_message"
    · rw [tokens_cons_of_other ev more ht]
      simp only [hev, ht, and_self, if_true, ne_eq, not_false_eq_true]
      exact ih hmore k
    · rw [tokens_cons_of_token ev more ht]
      simp only [hev, ht, if_false, writeSSEEvent, hw k, List.map_cons, List.length_cons,
        List.cons_append]
      rw [ih hmore (k + 1)]
      have hk : k + 1 + (tokens more).length = k + ((tokens more).length + 1) := by omega
      rw [hk]
      rfl

end anthropic

namespace gemini

open dify

theorem gemini_writeLoop_append (wr : Nat → Option GoError)
    (hw : ∀ k, wr k = none) (pre rest : List dify.StreamEvent)
    (hpre : ∀ x ∈ pre, x.Err = none) (k : Nat) :
    writeLoop wr k (pre ++ rest) =
      ((tokens pre).map (fun ev => Frame.data (chunk ev)) ++
          (writeLoop wr (k + (tokens pre).length) rest).1,
        (writeLoop wr (k + (tokens pre).length) rest).2) := by
  induction pre generalizing k with
  | nil => simp [tokens]
  | cons ev more ih =>
    have hev : ev.Err = none := hpre ev (List.mem_cons_self _ _)
    have hmore : ∀ x ∈ more, x.Err = none := fun x hx => hpre x (List.mem_cons_of_mem _ hx)
    simp only [List.cons_append]
    rw [writeLoop]
    by_cases ht : ev.Event ≠ "message" ∧ ev.Event ≠ "agent_message"
    · rw [tokens_cons_of_other ev more ht]
      simp only [hev, ht, and_self, if_true, ne_eq, not_false_eq_true]
      exact ih hmore k
    · rw [tokens_cons_of_token ev more ht]
      simp only [hev, ht, if_false, hw k, List.map_cons, List.length_cons, List.cons_append]
      rw [ih hmore (k + 1)]
      have hk : k + 1 + (tokens more).length = k + ((tokens more).length + 1) := by omega
      rw [hk]

end gemini

/-! ### Claims on the encoders -/

namespace openai

open dify

/-- C7. On a writer that accepts every write and a sequence with no `Err` event, the OpenAI
encoder writes one `chat.completion.chunk` frame per token event (content its `Answer`, id
its `MessageID`, choice index 0), in arrival order, nothing for the other events, and then
the frame `data: [DONE]`, and returns no error; with no token event the frame
`data: [DONE]` is all it writes. -/
theorem openai_stream_frames (wr : Nat → Option GoError) (now : Nat → Int)
    (model : String) (evs : List dify.StreamEvent)
    (hw : ∀ k, wr k = none) (h : ∀ e ∈ evs, e.Err = none) :
    WriteStreamingResponse wr now model evs =
        (deltaFrames now model 0 (tokens evs) ++ [Frame.done], none) ∧
      (tokens evs = [] → WriteStreamingResponse wr now model evs = ([Frame.done], none)) := by
  have key : WriteStreamingResponse wr now model evs =
      (deltaFrames now model 0 (tokens evs) ++ [Frame.done], none) := by
    have h0 := openai_writeLoop_append wr now model hw evs [] h 0
    simp only [List.append_nil] at h0
    unfold WriteStreamingResponse
    rw [h0]
    simp [writeLoop, hw]
  refine ⟨key, fun hn => ?_⟩
  rw [key, hn]
  rfl

/-- C7, witness: two token events around a `message_end` event. -/
theorem openai_stream_frames_witness :
    WriteStreamingResponse (fun _ => none) (fun _ => 1700000000) "dify"
        [{ tokenEvent "Hel" with MessageID := "m1" },
         { StreamEvent.zero with Event := "message_end" },
         { tokenEvent "lo" with MessageID := "m1" }] =
      ([Frame.data { ID := "m1", Object := "chat.completion.chunk", Created := 1700000000,
                     Model := "dify",
                     Choices := [{ Index := 0, Delta := { Role := "", Content := "Hel" },
                                   FinishReason := none }] },
        Frame.data { ID := "m1", Object := "chat.completion.chunk", Created := 1700000000,
                     Model := "dify",
                     Choices := [{ Index := 0, Delta := { Role := "", Content := "lo" },
                                   FinishReason := none }] },
        Frame.done], none) :=
  (openai_stream_frames (fun _ => none) (fun _ => 1700000000) "dify"
    [{ tokenEvent "Hel" with MessageID := "m1" },
     { StreamEvent.zero with Event := "message_end" },
     { tokenEvent "lo" with MessageID := "m1" }] (fun _ => rfl) (by decide)).1.trans (by decide)

end openai

namespace anthropic

open dify

/-- C8. On a writer that accepts every write and a sequence with no `Err` event that has n
token events, the Anthropic encoder writes exactly n + 4 frames: `message_start`,
`content_block_start`, one `content_block_delta` per token event with its `Answer` as
text, in arrival order, then `content_block_stop` and `message_stop`; the other events add
no frame, and no error is returned. -/
theorem anthropic_stream_frames (wr : Nat → Option GoError) (model : String)
    (evs : List dify.StreamEvent)
    (hw : ∀ k, wr k = none) (h : ∀ e ∈ evs, e.Err = none) :
    WriteStreamingResponse wr model evs =
        ([startFrame model, blockStartFrame] ++ (tokens evs).map deltaFrame ++
          [blockStopFrame, messageStopFrame], none) ∧
      (WriteStreamingResponse wr model evs).1.length = (tokens evs).length + 4 ∧
      (WriteStreamingResponse wr model evs).1.map (fun f => f.event) =
        ["message_start", "content_block_start"] ++
          List.replicate (tokens evs).length "content_block_delta" ++
          ["content_block_stop", "message_stop"] ∧
      (WriteStreamingResponse wr model evs).1.filterMap Frame.text =
        (tokens evs).map (fun e => e.Answer) := by
  have key : WriteStreamingResponse wr model evs =
      ([startFrame model, blockStartFrame] ++ (tokens evs).map deltaFrame ++
        [blockStopFrame, messageStopFrame], none) := by
    have h0 := anthropic_deltaLoop_append wr hw evs [] h 2
    simp only [List.append_nil] at h0
    unfold WriteStreamingResponse
    simp only [writeSSEEvent, hw]
    rw [h0]
    simp [deltaLoop, writeSSEEvent, hw, startFrame, blockStartFrame, blockStopFrame,
      messageStopFrame]
  refine ⟨key, ?_, ?_, ?_⟩
  · rw [key]
    simp
  · rw [key]
    simp only [List.map_append, List.map_map, List.map_cons, List.map_nil]
    have hr : List.map ((fun f => f.event) ∘ deltaFrame) (tokens evs) =
        List.replicate (tokens evs).length "content_block_delta" := by
      induction tokens evs with
      | nil => rfl
      | cons a l ih => simp [List.replicate_succ, ih, deltaFrame]
    rw [hr]
    rfl
  · rw [key]
    simp only [List.filterMap_append]
    have hm : List.filterMap Frame.text (List.map deltaFrame (tokens evs)) =
        (tokens evs).map (fun e => e.Answer) := by
      induction tokens evs with
      | nil => rfl
      | cons a l ih => simp [List.filterMap_cons, ih, deltaFrame, Frame.text, delta]
    rw [hm]
    simp [List.filterMap_cons, Frame.text, startFrame, blockStartFrame, blockStopFrame,
      messageStopFrame, blockStart]

/-- C8, witness: two token events around a `message_end` event give six frames. -/
theorem anthropic_stream_frames_witness :
    (WriteStreamingResponse (fun _ => none) "dify"
        [tokenEvent "Hel", { StreamEvent.zero with Event := "message_end" },
         tokenEvent "lo"]).1.map (fun f => f.event) =
      ["message_start", "content_block_start", "content_block_delta", "content_block_delta",
       "content_block_stop", "message_stop"] :=
  (anthropic_stream_frames (fun _ => none) "dify"
    [tokenEvent "Hel", { StreamEvent.zero with Event := "message_end" }, tokenEvent "lo"]
    (fun _ => rfl) (by decide)).2.2.1.trans (by decide)

end anthropic

namespace gemini

open dify

/-- C9. On a writer that accepts every write and a sequence with no `Err` event, the Gemini
encoder writes one candidate frame per token event (one candidate, role `model`, a single
part whose text is the `Answer`), in arrival order, and nothing else: no start frame, no
stop frame, no sentinel; with no token event nothing is written. -/
theorem gemini_stream_frames (wr : Nat → Option GoError)
    (evs : List dify.StreamEvent)
    (hw : ∀ k, wr k = none) (h : ∀ e ∈ evs, e.Err = none) :
    WriteStreamingResponse wr evs =
        ((tokens evs).map (fun ev => Frame.data (chunk ev)), none) ∧
      (tokens evs = [] → WriteStreamingResponse wr evs = ([], none)) := by
  have key : WriteStreamingResponse wr evs =
      ((tokens evs).map (fun ev => Frame.data (chunk ev)), none) := by
    have h0 := gemini_writeLoop_append wr hw evs [] h 0
    simp only [List.append_nil] at h0
    unfold WriteStreamingResponse
    rw [h0]
    simp [writeLoop]
  refine ⟨key, fun hn => ?_⟩
  rw [key, hn]
  rfl

/-- C9, witness: two token events around a `message_end` event. -/
theorem gemini_stream_frames_witness :
    WriteStreamingResponse (fun _ => none)
        [tokenEvent "Hel", { StreamEvent.zero with Event := "message_end" },
         tokenEvent "lo"] =
      ([Frame.data { Candidates := [{ Content := { Role := "model", Parts := [{ Text := "Hel" }] },
                                       FinishReason := "", Index := 0 }],
                     UsageMetadata := none },
        Frame.data { Candidates := [{ Content := { Role := "model", Parts := [{ Text := "lo" }] },
                                       FinishReason := "", Index := 0 }],
                     UsageMetadata := none }], none) :=
  (gemini_stream_frames (fun _ => none)
    [tokenEvent "Hel", { StreamEvent.zero with Event := "message_end" }, tokenEvent "lo"]
    (fun _ => rfl) (by decide)).1.trans (by decide)

end gemini

namespace adapter

open dify

/-- C10. An event with `Err` set ends the encoded stream and is propagated.  On a writer
that accepts every write, for a sequence whose first event with `Err` set is `e` (error
`c`), each of the three encoders writes the delta frames of the token events before `e`
only (after the two opening frames for Anthropic), writes no closing frame, returns `c`,
and its result does not depend on the events after `e`. -/
theorem WriteStreamingResponse_transport_error (wr : Nat → Option GoError) (now : Nat → Int)
    (model : String) (pre post : List StreamEvent) (e : StreamEvent) (c : GoError)
    (hw : ∀ k, wr k = none) (hpre : ∀ x ∈ pre, x.Err = none) (he : e.Err = some c) :
    openai.WriteStreamingResponse wr now model (pre ++ e :: post) =
        (openai.deltaFrames now model 0 (tokens pre), some c) ∧
      anthropic.WriteStreamingResponse wr model (pre ++ e :: post) =
        ([anthropic.startFrame model, anthropic.blockStartFrame] ++
          (tokens pre).map anthropic.deltaFrame, some c) ∧
      gemini.WriteStreamingResponse wr (pre ++ e :: post) =
        ((tokens pre).map (fun ev => gemini.Frame.data (gemini.chunk ev)), some c) := by
  refine ⟨?_, ?_, ?_⟩
  · unfold openai.WriteStreamingResponse
    rw [openai.openai_writeLoop_append wr now model hw pre (e :: post) hpre 0]
    simp [openai.writeLoop, he]
  · unfold anthropic.WriteStreamingResponse
    simp only [anthropic.writeSSEEvent, hw]
    rw [anthropic.anthropic_deltaLoop_append wr hw pre (e :: post) hpre 2]
    simp [anthropic.deltaLoop, he, anthropic.startFrame, anthropic.blockStartFrame]
  · unfold gemini.WriteStreamingResponse
    rw [gemini.gemini_writeLoop_append wr hw pre (e :: post) hpre 0]
    simp [gemini.writeLoop, he]

/-- C10, witness: a token event, a transport error, then another token event. -/
theorem WriteStreamingResponse_transport_error_witness :
    openai.WriteStreamingResponse (fun _ => none) (fun _ => 1700000000) "dify"
        ([tokenEvent "Hel"] ++ errEvent "connection reset" :: [tokenEvent "lo"]) =
      ([openai.Frame.data (openai.chunk "dify" 1700000000 (tokenEvent "Hel"))],
        some "connection reset") :=
  (WriteStreamingResponse_transport_error (fun _ => none) (fun _ => 1700000000) "dify"
    [tokenEvent "Hel"] [tokenEvent "lo"] (errEvent "connection reset") "connection reset"
    (fun _ => rfl) (by decide) rfl).1.trans (by decide)

end adapter

/-! ## The adapters -/

namespace strings

theorem takeWhile_stop {α : Type} (p : α → Bool) (l r : List α) (y : α)
    (hl : ∀ x ∈ l, p x = true) (hy : p y = false) :
    (l ++ y :: r).takeWhile p = l := by
  induction l with
  | nil => simp [List.takeWhile_cons, hy]
  | cons a t ih =>
    have ha : p a = true := hl a (List.mem_cons_self _ _)
    have ht : ∀ x ∈ t, p x = true := fun x hx => hl x (List.mem_cons_of_mem _ hx)
    simp [List.takeWhile_cons, ha, ih ht]

theorem some_append_ite (sb c : String) :
    (if sb ≠ "" then some (sb ++ c) else some c) = some (sb ++ c) := by
  by_cases h : sb = "" <;> simp [h]

theorem concat_append_single (l : List String) (s : String) :
    concat (l ++ [s]) = concat l ++ s := by
  induction l with
  | nil => simp [concat]
  | cons a t ih => simp [concat, ih, String.append_assoc]

end strings

namespace adapter

theorem finalLine_after_newline (p c : String) (hc : '\n' ∉ c.data) :
    finalLine (p ++ "\n" ++ c) = c := by
  unfold finalLine
  have hd : (p ++ "\n" ++ c).data = p.data ++ '\n' :: c.data := by
    simp [String.data_append]
  rw [hd, List.reverse_append, List.reverse_cons, List.append_assoc]
  have hs : (c.data.reverse ++ ([('\n' : Char)] ++ p.data.reverse)).takeWhile
      (fun ch => decide (ch ≠ '\n')) = c.data.reverse := by
    apply strings.takeWhile_stop
    · intro x hx
      have hx1 : x ∈ c.data := List.mem_reverse.mp hx
      have : x ≠ '\n' := fun h => hc (h ▸ hx1)
      simpa using this
    · simp
  rw [hs, List.reverse_reverse]

end adapter

namespace openai

theorem openai_foldl_line (prior : List Message) (acc : String) :
    prior.foldl (fun sb m => sb ++ m.Role ++ ": " ++ m.Content ++ "\n") acc =
      acc ++ strings.concat (prior.map line) := by
  induction prior generalizing acc with
  | nil => simp [strings.concat]
  | cons m rest ih =>
    rw [List.foldl_cons, ih]
    simp only [List.map_cons, strings.concat, line, String.append_assoc]

theorem openai_flattenMessages_concat (prior : List Message) (last : Message) :
    flattenMessages (prior ++ [last]) =
      some (strings.concat (prior.map line) ++ last.Content, prior) := by
  rcases prior with _ | ⟨a, t⟩
  · simp [flattenMessages, strings.concat]
  · have hl : (a :: t ++ [last]).getLast? = some last := List.getLast?_concat (a :: t)
    have hd : (a :: t ++ [last]).dropLast = a :: t := List.dropLast_concat
    rcases t with _ | ⟨b, t'⟩
    · simp [flattenMessages, strings.concat, line, String.append_assoc]
    · unfold flattenMessages
      simp only [List.cons_append] at hl hd ⊢
      simp only [hl, hd, openai_foldl_line, String.empty_append]

end openai

namespace anthropic

theorem anthropic_foldl_line (prior : List Message) (acc : String) :
    prior.foldl (fun sb m => sb ++ m.Role ++ ": " ++ m.Content ++ "\n") acc =
      acc ++ strings.concat (prior.map line) := by
  induction prior generalizing acc with
  | nil => simp [strings.concat]
  | cons m rest ih =>
    rw [List.foldl_cons, ih]
    simp only [List.map_cons, strings.concat, line, String.append_assoc]

theorem anthropic_flattenMessages_concat (prior : List Message) (last : Message)
    (system : String) :
    flattenMessages (prior ++ [last]) system =
      some (systemText system ++ strings.concat (prior.map line) ++ last.Content) := by
  rcases prior with _ | ⟨a, t⟩
  · simp only [flattenMessages, List.nil_append, List.map_nil, strings.concat,
      String.append_empty, systemText]
    exact strings.some_append_ite _ _
  · have hl : (a :: t ++ [last]).getLast? = some last := List.getLast?_concat (a :: t)
    have hd : (a :: t ++ [last]).dropLast = a :: t := List.dropLast_concat
    rcases t with _ | ⟨b, t'⟩
    · simp [flattenMessages, strings.concat, line, systemText, String.append_assoc]
    · unfold flattenMessages
      simp only [List.cons_append] at hl hd ⊢
      simp only [hl, hd, anthropic_foldl_line, systemText]

end anthropic

namespace gemini

theorem gemini_foldl_line (prior : List Content) (acc : String) :
    prior.foldl
        (fun sb c =>
          let role := if c.Role = "model" then "assistant" else c.Role
          sb ++ role ++ ": " ++ joinParts c.Parts ++ "\n") acc =
      acc ++ strings.concat (prior.map line) := by
  induction prior generalizing acc with
  | nil => simp [strings.concat]
  | cons m rest ih =>
    rw [List.foldl_cons, ih]
    simp only [List.map_cons, strings.concat, line, roleOf, String.append_assoc]

theorem gemini_flattenContents_concat (prior : List Content) (last : Content)
    (sys : Option SystemInstruction) :
    flattenContents (prior ++ [last]) sys =
      some (systemText sys ++ strings.concat (prior.map line) ++ joinParts last.Parts) := by
  rcases prior with _ | ⟨a, t⟩
  · simp only [flattenContents, List.nil_append, List.map_nil, strings.concat,
      String.append_empty, systemText]
    exact strings.some_append_ite _ _
  · have hl : (a :: t ++ [last]).getLast? = some last := List.getLast?_concat (a :: t)
    have hd : (a :: t ++ [last]).dropLast = a :: t := List.dropLast_concat
    rcases t with _ | ⟨b, t'⟩
    · simp [flattenContents, strings.concat, line, roleOf, systemText, String.append_assoc]
    · unfold flattenContents
      simp only [List.cons_append] at hl hd ⊢
      simp only [hl, hd, gemini_foldl_line, systemText]

end gemini

/-! ### Claims on terminal errors, blocking bodies and flattening -/

namespace openai

theorem openai_writeLoop_congr (wr : Nat → Option GoError) (now : Nat → Int) (model : String)
    (a b : List dify.StreamEvent)
    (h : ∀ k, writeLoop wr now model k a = writeLoop wr now model k b)
    (pre : List dify.StreamEvent) (k : Nat) :
    writeLoop wr now model k (pre ++ a) = writeLoop wr now model k (pre ++ b) := by
  induction pre generalizing k with
  | nil => simpa using h k
  | cons ev rest ih =>
    simp only [List.cons_append]
    rw [writeLoop, writeLoop]
    simp only [ih]

end openai

namespace anthropic

theorem anthropic_deltaLoop_congr (wr : Nat → Option GoError)
    (a b : List dify.StreamEvent)
    (h : ∀ k, deltaLoop wr k a = deltaLoop wr k b)
    (pre : List dify.StreamEvent) (k : Nat) :
    deltaLoop wr k (pre ++ a) = deltaLoop wr k (pre ++ b) := by
  induction pre generalizing k with
  | nil => simpa using h k
  | cons ev rest ih =>
    simp only [List.cons_append]
    rw [deltaLoop, deltaLoop]
    simp only [ih]

end anthropic

namespace gemini

theorem gemini_writeLoop_congr (wr : Nat → Option GoError)
    (a b : List dify.StreamEvent)
    (h : ∀ k, writeLoop wr k a = writeLoop wr k b)
    (pre : List dify.StreamEvent) (k : Nat) :
    writeLoop wr k (pre ++ a) = writeLoop wr k (pre ++ b) := by
  induction pre generalizing k with
  | nil => simpa using h k
  | cons ev rest ih =>
    simp only [List.cons_append]
    rw [writeLoop, writeLoop]
    simp only [ih]

end gemini

namespace adapter

open dify

/-- C11, as stated, fails: after a record of kind `error` the token event `lo` still gets
its frame from each of the three encoders, and each of them returns no error. -/
theorem terminal_error_counterexample :
    openai.WriteStreamingResponse (fun _ => none) (fun _ => 0) "dify"
        [errorRecord 400 "invalid_param" "bad request", tokenEvent "lo"] =
        ([openai.Frame.data (openai.chunk "dify" 0 (tokenEvent "lo")), openai.Frame.done],
          none) ∧
      (anthropic.WriteStreamingResponse (fun _ => none) "dify"
        [errorRecord 400 "invalid_param" "bad request", tokenEvent "lo"]).1.filterMap
          anthropic.Frame.text = ["lo"] ∧
      (anthropic.WriteStreamingResponse (fun _ => none) "dify"
        [errorRecord 400 "invalid_param" "bad request", tokenEvent "lo"]).2 = none ∧
      gemini.WriteStreamingResponse (fun _ => none)
        [errorRecord 400 "invalid_param" "bad request", tokenEvent "lo"] =
        ([gemini.Frame.data (gemini.chunk (tokenEvent "lo"))], none) := by
  refine ⟨by decide, by decide, by decide, by decide⟩

/-- C11, amended. A record of kind `error` whose `Err` is not set is filtered like every
other event that is not a token: for each of the three encoders, on every writer, the
frames written and the value returned are the same with the record as without it.  It
neither ends the stream nor makes the encoder fail; only an event with `Err` set does. -/
theorem terminal_error_filtered (wr : Nat → Option GoError) (now : Nat → Int)
    (model : String) (pre post : List StreamEvent) (status : Int) (code message : String) :
    openai.WriteStreamingResponse wr now model
        (pre ++ errorRecord status code message :: post) =
        openai.WriteStreamingResponse wr now model (pre ++ post) ∧
      anthropic.WriteStreamingResponse wr model
        (pre ++ errorRecord status code message :: post) =
        anthropic.WriteStreamingResponse wr model (pre ++ post) ∧
      gemini.WriteStreamingResponse wr (pre ++ errorRecord status code message :: post) =
        gemini.WriteStreamingResponse wr (pre ++ post) := by
  have hk : (errorRecord status code message).Event ≠ "message" ∧
      (errorRecord status code message).Event ≠ "agent_message" := by
    have hE : (errorRecord status code message).Event = "error" := rfl
    rw [hE]
    constructor <;> decide
  have he : (errorRecord status code message).Err = none := rfl
  refine ⟨?_, ?_, ?_⟩
  · unfold openai.WriteStreamingResponse
    apply openai.openai_writeLoop_congr
    intro k
    rw [openai.writeLoop]
    simp only [he]
    rw [if_pos hk]
  · unfold anthropic.WriteStreamingResponse
    have h2 : anthropic.deltaLoop wr 2 (pre ++ errorRecord status code message :: post) =
        anthropic.deltaLoop wr 2 (pre ++ post) := by
      apply anthropic.anthropic_deltaLoop_congr
      intro k
      rw [anthropic.deltaLoop]
      simp only [he]
      rw [if_pos hk]
    rw [h2]
  · unfold gemini.WriteStreamingResponse
    apply gemini.gemini_writeLoop_congr
    intro k
    rw [gemini.writeLoop]
    simp only [he]
    rw [if_pos hk]

/-- C12. For every upstream blocking response with answer A, the body each encoder writes
(on a writer that accepts the write) has exactly one choice, content block or candidate,
and carries A unchanged at the content path of the protocol: `choices[0].message.content`,
`content[0].text`, `candidates[0].content.parts[0].text` (a single part). -/
theorem blocking_body_answer (wr : Nat → Option GoError) (created : Int) (model : String)
    (resp : BlockingResponse) (hw : wr 0 = none) :
    (openai.WriteBlockingResponse wr created resp model).toOption.map
        (fun b => b.Choices.map (fun c => c.Message.Content)) = some [resp.Answer] ∧
      (anthropic.WriteBlockingResponse wr resp model).toOption.map
        (fun b => b.Content.map (fun c => c.Text)) = some [resp.Answer] ∧
      (gemini.WriteBlockingResponse wr resp).toOption.map
        (fun b => b.Candidates.map (fun c => c.Content.Parts.map (fun p => p.Text))) =
        some [[resp.Answer]] := by
  simp [openai.WriteBlockingResponse, anthropic.WriteBlockingResponse,
    gemini.WriteBlockingResponse, hw, Except.toOption]

/-- C12, witness: the answer `Hello from Dify`. -/
theorem blocking_body_answer_witness :
    (openai.WriteBlockingResponse (fun _ => none) 0
        { MessageID := "msg-abc123", ConversationID := "conv-xyz789", Mode := "blocking",
          Answer := "Hello from Dify", Metadata := [], CreatedAt := 0 } "dify").toOption.map
        (fun b => b.Choices.map (fun c => c.Message.Content)) = some ["Hello from Dify"] :=
  (blocking_body_answer (fun _ => none) 0 "dify"
    { MessageID := "msg-abc123", ConversationID := "conv-xyz789", Mode := "blocking",
      Answer := "Hello from Dify", Metadata := [], CreatedAt := 0 } rfl).1

end adapter

namespace strings

theorem concat_lines_end {α : Type} (f g : α → String) (hf : ∀ a, f a = g a ++ "\n")
    (l : List α) (hl : l ≠ []) : ∃ p, concat (l.map f) = p ++ "\n" := by
  obtain ⟨init, x, hx⟩ := (List.eq_nil_or_concat l).resolve_left hl
  rw [List.concat_eq_append] at hx
  subst hx
  refine ⟨concat (init.map f) ++ g x, ?_⟩
  rw [List.map_append, List.map_cons, List.map_nil, concat_append_single, hf x,
    String.append_assoc]

end strings

namespace adapter

theorem openai_queryOf (dec : String → Except GoError openai.ChatCompletionRequest)
    (r : http.Request) (user : String) (req : openai.ChatCompletionRequest)
    (prior : List openai.Message) (last : openai.Message)
    (hd : dec r.Body = .ok req) (hm : req.Messages = prior ++ [last]) :
    queryOf (openai.ToDifyRequest dec r user) =
      some (strings.concat (prior.map openai.line) ++ last.Content) := by
  unfold openai.ToDifyRequest
  rw [hd]
  simp only [hm, openai.openai_flattenMessages_concat]
  simp [queryOf]

theorem anthropic_queryOf (dec : String → Except GoError anthropic.MessagesRequest)
    (r : http.Request) (user : String) (req : anthropic.MessagesRequest)
    (prior : List anthropic.Message) (last : anthropic.Message)
    (hd : dec r.Body = .ok req) (hm : req.Messages = prior ++ [last]) :
    queryOf (anthropic.ToDifyRequest dec r user) =
      some (anthropic.systemText req.System ++ strings.concat (prior.map anthropic.line) ++
        last.Content) := by
  unfold anthropic.ToDifyRequest
  rw [hd]
  simp only [hm, anthropic.anthropic_flattenMessages_concat]
  simp [queryOf]

theorem gemini_queryOf (dec : String → Except GoError gemini.GenerateContentRequest)
    (r : http.Request) (user : String) (streaming : Bool)
    (req : gemini.GenerateContentRequest)
    (prior : List gemini.Content) (last : gemini.Content)
    (hd : dec r.Body = .ok req) (hm : req.Contents = prior ++ [last]) :
    queryOf (gemini.ToDifyRequest dec r user streaming) =
      some (gemini.systemText req.SystemInstruction ++
        strings.concat (prior.map gemini.line) ++ gemini.joinParts last.Parts) := by
  unfold gemini.ToDifyRequest
  rw [hd]
  simp only [hm, gemini.gemini_flattenContents_concat]
  simp [queryOf]

/-- C13, as stated, fails: with a system field the query of a single-message Anthropic
request is the system line followed by the message text, not the text alone; the same
holds for a Gemini request with a system instruction. -/
theorem single_message_counterexample :
    queryOf (anthropic.ToDifyRequest
        (fun _ => .ok { Model := "claude-3", MaxTokens := 1024,
                        Messages := [{ Role := "user", Content := "hi" }],
                        System := "be brief", Stream := false })
        (bareRequest "/v1/messages" "" "") "test-user") = some "system: be brief\nhi" ∧
      queryOf (gemini.ToDifyRequest
        (fun _ => .ok { Contents := [{ Role := "user", Parts := [{ Text := "hi" }] }],
                        SystemInstruction := some { Parts := [{ Text := "be brief" }] } })
        (bareRequest "/v1beta/models/gemini-pro:generateContent" "" "") "test-user" false) =
        some "system: be brief\nhi" := by
  constructor <;> decide

/-- C13, amended. For every request that decodes to exactly one message, the query is the
system text of the request followed by the raw text of the message: nothing for OpenAI,
the line `system: ` S for an Anthropic request with a non-empty system field S or a Gemini
request whose system instruction has at least one part.  Without such a system text the
query is the raw text of the message verbatim. -/
theorem single_message_query
    (decO : String → Except GoError openai.ChatCompletionRequest)
    (decA : String → Except GoError anthropic.MessagesRequest)
    (decG : String → Except GoError gemini.GenerateContentRequest)
    (r : http.Request) (user : String) (streaming : Bool)
    (reqO : openai.ChatCompletionRequest) (mO : openai.Message)
    (reqA : anthropic.MessagesRequest) (mA : anthropic.Message)
    (reqG : gemini.GenerateContentRequest) (cG : gemini.Content)
    (hO : decO r.Body = .ok reqO) (hmO : reqO.Messages = [mO])
    (hA : decA r.Body = .ok reqA) (hmA : reqA.Messages = [mA])
    (hG : decG r.Body = .ok reqG) (hmG : reqG.Contents = [cG]) :
    queryOf (openai.ToDifyRequest decO r user) = some mO.Content ∧
      queryOf (anthropic.ToDifyRequest decA r user) =
        some (anthropic.systemText reqA.System ++ mA.Content) ∧
      (reqA.System = "" → queryOf (anthropic.ToDifyRequest decA r user) = some mA.Content) ∧
      queryOf (gemini.ToDifyRequest decG r user streaming) =
        some (gemini.systemText reqG.SystemInstruction ++ gemini.joinParts cG.Parts) ∧
      (reqG.SystemInstruction = none →
        queryOf (gemini.ToDifyRequest decG r user streaming) =
          some (gemini.joinParts cG.Parts)) := by
  have h1 := openai_queryOf decO r user reqO [] mO hO (by simpa using hmO)
  have h2 := anthropic_queryOf decA r user reqA [] mA hA (by simpa using hmA)
  have h3 := gemini_queryOf decG r user streaming reqG [] cG hG (by simpa using hmG)
  simp only [List.map_nil, strings.concat, String.append_empty, String.empty_append] at h1 h2 h3
  refine ⟨h1, h2, ?_, h3, ?_⟩
  · intro hs
    rw [h2, hs]
    simp [anthropic.systemText]
  · intro hs
    rw [h3, hs]
    simp [gemini.systemText]

/-- C13, witness: the single-message test requests of the three shapes. -/
theorem single_message_query_witness :
    queryOf (openai.ToDifyRequest
        (fun _ => .ok { Model := "gpt-4", Messages := [{ Role := "user", Content := "hi" }],
                        Stream := false })
        (bareRequest "/v1/chat/completions" "" "") "test-user") = some "hi" :=
  (single_message_query
    (fun _ => .ok { Model := "gpt-4", Messages := [{ Role := "user", Content := "hi" }],
                    Stream := false })
    (fun _ => .ok { Model := "claude-3", MaxTokens := 1024,
                    Messages := [{ Role := "user", Content := "hi" }],
                    System := "", Stream := false })
    (fun _ => .ok gemini.sampleRequest)
    (bareRequest "/v1/chat/completions" "" "") "test-user" false
    _ { Role := "user", Content := "hi" } _ { Role := "user", Content := "hi" }
    _ { Role := "user", Parts := [{ Text := "Say hello" }] }
    rfl rfl rfl rfl rfl rfl).1

end adapter

namespace openai

/-- C14. For every message list m1..mn, `flattenMessages` returns the concatenation of the
lines `Role: Content` and a newline for m1..m(n-1), in their order, followed by the
content of mn unprefixed and with no trailing newline; so for every non-empty list the
query ends with the content of the last message. -/
theorem openai_flattenMessages_lines (prior : List Message) (last : Message) :
    flattenMessages (prior ++ [last]) =
        some (strings.concat (prior.map (fun m => m.Role ++ ": " ++ m.Content ++ "\n")) ++
          last.Content, prior) ∧
      ∀ msgs : List Message, msgs ≠ [] →
        ∃ q ps l pre, msgs.getLast? = some l ∧ flattenMessages msgs = some (q, ps) ∧
          q = pre ++ l.Content := by
  constructor
  · exact openai_flattenMessages_concat prior last
  · intro msgs hne
    obtain ⟨init, x, hx⟩ := (List.eq_nil_or_concat msgs).resolve_left hne
    rw [List.concat_eq_append] at hx
    subst hx
    exact ⟨_, init, x, _, List.getLast?_concat init, openai_flattenMessages_concat init x, rfl⟩

/-- C14, witness: the four-message test conversation gives a query ending in `Why?`. -/
theorem openai_flattenMessages_lines_witness :
    flattenMessages
        [{ Role := "system", Content := "You are helpful." },
         { Role := "user", Content := "What is 2+2?" },
         { Role := "assistant", Content := "4" },
         { Role := "user", Content := "Why?" }] =
      some ("system: You are helpful.\nuser: What is 2+2?\nassistant: 4\nWhy?",
        [{ Role := "system", Content := "You are helpful." },
         { Role := "user", Content := "What is 2+2?" },
         { Role := "assistant", Content := "4" }]) :=
  (openai_flattenMessages_lines
    [{ Role := "system", Content := "You are helpful." },
     { Role := "user", Content := "What is 2+2?" },
     { Role := "assistant", Content := "4" }]
    { Role := "user", Content := "Why?" }).1.trans (by decide)

end openai

namespace adapter

/-- C15, as stated, fails: when the content of the last message has a newline, the final
line of the query is only the part after it; and a Gemini content of role `model` appears
before the last one as `assistant: 4`, not as `model: 4`. -/
theorem final_line_counterexample :
    (openai.flattenMessages
        [{ Role := "user", Content := "hi" }, { Role := "user", Content := "a\nb" }]).map
        (fun q => finalLine q.1) = some "b" ∧
      gemini.flattenContents
        [{ Role := "model", Parts := [{ Text := "4" }] },
         { Role := "user", Parts := [{ Text := "Why?" }] }] none =
        some "assistant: 4\nWhy?" := by
  constructor <;> decide

/-- C15, amended. For every request that decodes to two or more messages, the query is the
system text of the request, then for each message but the last one, in their order, the
line `role: content` ended by a newline (the role `model` of a Gemini content written
`assistant`), then the content of the last message.  When that content has no newline it
is the final line of the query. -/
theorem multi_message_query
    (decO : String → Except GoError openai.ChatCompletionRequest)
    (decA : String → Except GoError anthropic.MessagesRequest)
    (decG : String → Except GoError gemini.GenerateContentRequest)
    (r : http.Request) (user : String) (streaming : Bool)
    (reqO : openai.ChatCompletionRequest) (pO : List openai.Message) (lO : openai.Message)
    (reqA : anthropic.MessagesRequest) (pA : List anthropic.Message) (lA : anthropic.Message)
    (reqG : gemini.GenerateContentRequest) (pG : List gemini.Content) (lG : gemini.Content)
    (hO : decO r.Body = .ok reqO) (hmO : reqO.Messages = pO ++ [lO]) (hpO : pO ≠ [])
    (hA : decA r.Body = .ok reqA) (hmA : reqA.Messages = pA ++ [lA]) (hpA : pA ≠ [])
    (hG : decG r.Body = .ok reqG) (hmG : reqG.Contents = pG ++ [lG]) (hpG : pG ≠ []) :
    queryOf (openai.ToDifyRequest decO r user) =
        some (strings.concat (pO.map (fun m => m.Role ++ ": " ++ m.Content ++ "\n")) ++
          lO.Content) ∧
      ('\n' ∉ lO.Content.data →
        (queryOf (openai.ToDifyRequest decO r user)).map finalLine = some lO.Content) ∧
      queryOf (anthropic.ToDifyRequest decA r user) =
        some (anthropic.systemText reqA.System ++
          strings.concat (pA.map (fun m => m.Role ++ ": " ++ m.Content ++ "\n")) ++
          lA.Content) ∧
      ('\n' ∉ lA.Content.data →
        (queryOf (anthropic.ToDifyRequest decA r user)).map finalLine = some lA.Content) ∧
      queryOf (gemini.ToDifyRequest decG r user streaming) =
        some (gemini.systemText reqG.SystemInstruction ++
          strings.concat (pG.map (fun c =>
            (if c.Role = "model" then "assistant" else c.Role) ++ ": " ++
              gemini.joinParts c.Parts ++ "\n")) ++
          gemini.joinParts lG.Parts) ∧
      ('\n' ∉ (gemini.joinParts lG.Parts).data →
        (queryOf (gemini.ToDifyRequest decG r user streaming)).map finalLine =
          some (gemini.joinParts lG.Parts)) := by
  have h1 := openai_queryOf decO r user reqO pO lO hO hmO
  have h2 := anthropic_queryOf decA r user reqA pA lA hA hmA
  have h3 := gemini_queryOf decG r user streaming reqG pG lG hG hmG
  obtain ⟨e1, he1⟩ := strings.concat_lines_end openai.line
    (fun m => m.Role ++ ": " ++ m.Content) (fun _ => rfl) pO hpO
  obtain ⟨e2, he2⟩ := strings.concat_lines_end anthropic.line
    (fun m => m.Role ++ ": " ++ m.Content) (fun _ => rfl) pA hpA
  obtain ⟨e3, he3⟩ := strings.concat_lines_end gemini.line
    (fun c => gemini.roleOf c ++ ": " ++ gemini.joinParts c.Parts) (fun _ => rfl) pG hpG
  refine ⟨h1, ?_, h2, ?_, h3, ?_⟩
  · intro hn
    rw [h1, he1]
    simp only [Option.map_some', finalLine_after_newline e1 lO.Content hn]
  · intro hn
    rw [h2, he2, ← String.append_assoc]
    simp only [Option.map_some', finalLine_after_newline _ lA.Content hn]
  · intro hn
    rw [h3, he3, ← String.append_assoc]
    simp only [Option.map_some', finalLine_after_newline _ _ hn]

/-- C15, witness: the four-message test conversation, in the OpenAI shape. -/
theorem multi_message_query_witness :
    (queryOf (openai.ToDifyRequest
        (fun _ => .ok { Model := "gpt-4",
                        Messages := [{ Role := "system", Content := "You are helpful." },
                                     { Role := "user", Content := "What is 2+2?" },
                                     { Role := "assistant", Content := "4" }] ++
                                    [{ Role := "user", Content := "Why?" }],
                        Stream := false })
        (bareRequest "/v1/chat/completions" "" "") "test-user")).map finalLine =
      some "Why?" :=
  (multi_message_query
    (fun _ => .ok { Model := "gpt-4",
                    Messages := [{ Role := "system", Content := "You are helpful." },
                                 { Role := "user", Content := "What is 2+2?" },
                                 { Role := "assistant", Content := "4" }] ++
                                [{ Role := "user", Content := "Why?" }],
                    Stream := false })
    (fun _ => .ok { Model := "claude-3", MaxTokens := 1024,
                    Messages := [{ Role := "user", Content := "What is 2+2?" }] ++
                                [{ Role := "user", Content := "Why?" }],
                    System := "You are helpful.", Stream := false })
    (fun _ => .ok { Contents := [{ Role := "model", Parts := [{ Text := "4" }] }] ++
                                [{ Role := "user", Parts := [{ Text := "Why?" }] }],
                    SystemInstruction := none })
    (bareRequest "/v1/chat/completions" "" "") "test-user" false
    _ _ _ _ _ _ _ _ _
    rfl rfl (by decide) rfl rfl (by decide) rfl rfl (by decide)).2.1 (by decide)

/-- C16. For each adapter `ToDifyRequest` never panics; it returns an error, and no
request, exactly when the body does not decode or the decoded message list (contents list)
is empty, an absent list being empty; otherwise it returns a request.  So the flattening
function is applied to non-empty lists only, where its last-element access succeeds. -/
theorem decode_failure
    (decO : String → Except GoError openai.ChatCompletionRequest)
    (decA : String → Except GoError anthropic.MessagesRequest)
    (decG : String → Except GoError gemini.GenerateContentRequest)
    (r : http.Request) (user : String) (streaming : Bool) :
    ((∀ e, decO r.Body = .error e →
          openai.ToDifyRequest decO r user = some (.error ("decode body: " ++ e))) ∧
        (∀ req, decO r.Body = .ok req → req.Messages = [] →
          openai.ToDifyRequest decO r user = some (.error "messages must not be empty")) ∧
        (∀ req, decO r.Body = .ok req → req.Messages ≠ [] →
          (openai.flattenMessages req.Messages).isSome = true ∧
            ∃ q, openai.ToDifyRequest decO r user = some (.ok (q, req.Stream)))) ∧
      ((∀ e, decA r.Body = .error e →
          anthropic.ToDifyRequest decA r user = some (.error ("decode body: " ++ e))) ∧
        (∀ req, decA r.Body = .ok req → req.Messages = [] →
          anthropic.ToDifyRequest decA r user = some (.error "messages must not be empty")) ∧
        (∀ req, decA r.Body = .ok req → req.Messages ≠ [] →
          (anthropic.flattenMessages req.Messages req.System).isSome = true ∧
            ∃ q, anthropic.ToDifyRequest decA r user = some (.ok (q, req.Stream)))) ∧
      ((∀ e, decG r.Body = .error e →
          gemini.ToDifyRequest decG r user streaming =
            some (.error ("decode body: " ++ e))) ∧
        (∀ req, decG r.Body = .ok req → req.Contents = [] →
          gemini.ToDifyRequest decG r user streaming =
            some (.error "contents must not be empty")) ∧
        (∀ req, decG r.Body = .ok req → req.Contents ≠ [] →
          (gemini.flattenContents req.Contents req.SystemInstruction).isSome = true ∧
            ∃ q, gemini.ToDifyRequest decG r user streaming = some (.ok (q, streaming)))) := by
  refine ⟨⟨?_, ?_, ?_⟩, ⟨?_, ?_, ?_⟩, ⟨?_, ?_, ?_⟩⟩
  · intro e he
    simp [openai.ToDifyRequest, he]
  · intro req hd hm
    simp [openai.ToDifyRequest, hd, hm]
  · intro req hd hm
    obtain ⟨init, x, hx⟩ := (List.eq_nil_or_concat req.Messages).resolve_left hm
    rw [List.concat_eq_append] at hx
    have hf := openai.openai_flattenMessages_concat init x
    rw [← hx] at hf
    refine ⟨by simp [hf], ?_⟩
    simp [openai.ToDifyRequest, hd, hf, hm]
  · intro e he
    simp [anthropic.ToDifyRequest, he]
  · intro req hd hm
    simp [anthropic.ToDifyRequest, hd, hm]
  · intro req hd hm
    obtain ⟨init, x, hx⟩ := (List.eq_nil_or_concat req.Messages).resolve_left hm
    rw [List.concat_eq_append] at hx
    have hf := anthropic.anthropic_flattenMessages_concat init x req.System
    rw [← hx] at hf
    refine ⟨by simp [hf], ?_⟩
    simp [anthropic.ToDifyRequest, hd, hf, hm]
  · intro e he
    simp [gemini.ToDifyRequest, he]
  · intro req hd hm
    simp [gemini.ToDifyRequest, hd, hm]
  · intro req hd hm
    obtain ⟨init, x, hx⟩ := (List.eq_nil_or_concat req.Contents).resolve_left hm
    rw [List.concat_eq_append] at hx
    have hf := gemini.gemini_flattenContents_concat init x req.SystemInstruction
    rw [← hx] at hf
    refine ⟨by simp [hf], ?_⟩
    simp [gemini.ToDifyRequest, hd, hf, hm]

/-- C16, witness: a body that decodes to an empty message list is refused. -/
theorem decode_failure_witness :
    openai.ToDifyRequest
        (fun _ => .ok { Model := "gpt-4", Messages := [], Stream := false })
        (bareRequest "/v1/chat/completions" "" "") "test-user" =
      some (.error "messages must not be empty") :=
  (decode_failure
    (fun _ => .ok { Model := "gpt-4", Messages := [], Stream := false })
    (fun _ => .error "unexpected end of JSON input")
    (fun _ => .error "unexpected end of JSON input")
    (bareRequest "/v1/chat/completions" "" "") "test-user" false).1.2.1 _ rfl rfl

end adapter

/-! ### Claims on credentials and handlers -/

namespace strings

theorem cutChars_some (l pre rest : List Char) (h : cutChars l pre = some rest) :
    l = pre ++ rest := by
  induction pre generalizing l with
  | nil =>
    cases l <;> simp [cutChars] at h <;> simp [h]
  | cons p pre ih =>
    cases l with
    | nil => simp [cutChars] at h
    | cons c l =>
      simp only [cutChars] at h
      by_cases hc : c = p
      · simp only [hc, if_true] at h
        simp [hc, ih l h]
      · simp [hc] at h

theorem CutPrefix_none (s pre : String) (h : ¬ ∃ rest, s = pre ++ rest) :
    CutPrefix s pre = none := by
  cases hc : cutChars s.data pre.data with
  | none => simp [CutPrefix, hc]
  | some rest =>
    exfalso
    apply h
    refine ⟨⟨rest⟩, ?_⟩
    have := cutChars_some _ _ _ hc
    apply String.ext
    simpa [String.data_append] using this

end strings

namespace httputil

theorem ExtractCredentials_no_key (r : http.Request) (defaultUser : String)
    (h1 : r.Header "Authorization" = "") (h2 : r.Header "X-Dify-Api-Key" = "") :
    (ExtractCredentials r defaultUser).APIKey = "" := by
  have ht : strings.TrimSpace "" = "" := by decide
  have hc : strings.CutPrefix "" "Bearer " = none := by decide
  simp [ExtractCredentials, h1, h2, ht, hc]

/-- C17. `ExtractCredentials` is a total function of the headers and the default user.
The key is the trimmed value of `X-Dify-Api-Key` when that is not empty, whatever
`Authorization` holds; otherwise the trimmed remainder of `Authorization` when it starts
with `Bearer `; otherwise the empty string.  The user is the trimmed value of
`X-Dify-User` when that is not empty, otherwise the default user. -/
theorem ExtractCredentials_precedence (r : http.Request) (defaultUser : String) :
    (strings.TrimSpace (r.Header "X-Dify-Api-Key") ≠ "" →
        (ExtractCredentials r defaultUser).APIKey =
          strings.TrimSpace (r.Header "X-Dify-Api-Key")) ∧
      (strings.TrimSpace (r.Header "X-Dify-Api-Key") = "" →
        ∀ rest, r.Header "Authorization" = "Bearer " ++ rest →
          (ExtractCredentials r defaultUser).APIKey = strings.TrimSpace rest) ∧
      (strings.TrimSpace (r.Header "X-Dify-Api-Key") = "" →
        (¬ ∃ rest, r.Header "Authorization" = "Bearer " ++ rest) →
          (ExtractCredentials r defaultUser).APIKey = "") ∧
      (strings.TrimSpace (r.Header "X-Dify-User") ≠ "" →
        (ExtractCredentials r defaultUser).User =
          strings.TrimSpace (r.Header "X-Dify-User")) ∧
      (strings.TrimSpace (r.Header "X-Dify-User") = "" →
        (ExtractCredentials r defaultUser).User = defaultUser) := by
  refine ⟨?_, ?_, ?_, ?_, ?_⟩
  · intro h
    simp [ExtractCredentials, h]
  · intro h rest hr
    simp [ExtractCredentials, h, hr, strings.CutPrefix_append]
  · intro h hn
    simp [ExtractCredentials, h, strings.CutPrefix_none _ _ hn]
  · intro h
    simp [ExtractCredentials, h]
  · intro h
    simp [ExtractCredentials, h]

/-- C17, witness: with both headers present the native key wins over the Bearer token. -/
theorem ExtractCredentials_precedence_witness :
    (ExtractCredentials
        { Header := fun k =>
            if k = "X-Dify-Api-Key" then " app-native " else
            if k = "Authorization" then "Bearer app-bearer" else "",
          URL := { Path := "/v1/chat/completions", RawQuery := "" }, Body := "" }
        "test-user").APIKey = "app-native" :=
  ((ExtractCredentials_precedence
    { Header := fun k =>
        if k = "X-Dify-Api-Key" then " app-native " else
        if k = "Authorization" then "Bearer app-bearer" else "",
      URL := { Path := "/v1/chat/completions", RawQuery := "" }, Body := "" }
    "test-user").1 (by decide)).trans (by decide)

end httputil

namespace adapter

theorem openai_no_key (dec : String → Except GoError openai.ChatCompletionRequest)
    (sendBlocking : String → dify.ChatRequest → Except GoError dify.BlockingResponse)
    (sendStreaming : String → dify.ChatRequest → Except GoError (List dify.StreamEvent))
    (wr : Nat → Option GoError) (now : Nat → Int) (defaultUser : String)
    (r : http.Request)
    (h1 : r.Header "Authorization" = "") (h2 : r.Header "X-Dify-Api-Key" = "") :
    openai.ServeHTTP dec sendBlocking sendStreaming wr now defaultUser r =
      some { steps := [], reply := .error (apierrors.WriteJSONError 401 missingKey) } := by
  unfold openai.ServeHTTP
  simp only [httputil.ExtractCredentials_no_key r defaultUser h1 h2, if_true]
  rfl

theorem gemini_no_key (dec : String → Except GoError gemini.GenerateContentRequest)
    (sendBlocking : String → dify.ChatRequest → Except GoError dify.BlockingResponse)
    (sendStreaming : String → dify.ChatRequest → Except GoError (List dify.StreamEvent))
    (wr : Nat → Option GoError) (defaultUser : String)
    (r : http.Request) (streaming : Bool)
    (h1 : r.Header "Authorization" = "") (h2 : r.Header "X-Dify-Api-Key" = "") :
    gemini.serveHTTP dec sendBlocking sendStreaming wr defaultUser r streaming =
      some { steps := [], reply := .error (apierrors.WriteJSONError 401 missingKey) } := by
  unfold gemini.serveHTTP
  simp only [httputil.ExtractCredentials_no_key r defaultUser h1 h2, if_true]
  rfl

/-- C18. For every request without `Authorization` and without `X-Dify-Api-Key`, whatever
its body, its decoder and the upstream, the OpenAI and the Gemini handler reply with
status 401 and take no step before it: no body decoding, no blocking and no streaming
call. -/
theorem missing_key_unauthorized
    (decO : String → Except GoError openai.ChatCompletionRequest)
    (decG : String → Except GoError gemini.GenerateContentRequest)
    (sendBlocking : String → dify.ChatRequest → Except GoError dify.BlockingResponse)
    (sendStreaming : String → dify.ChatRequest → Except GoError (List dify.StreamEvent))
    (wr : Nat → Option GoError) (now : Nat → Int) (defaultUser : String)
    (r : http.Request) (streaming : Bool)
    (h1 : r.Header "Authorization" = "") (h2 : r.Header "X-Dify-Api-Key" = "") :
    openai.ServeHTTP decO sendBlocking sendStreaming wr now defaultUser r =
        some { steps := [], reply := .error (apierrors.WriteJSONError 401 missingKey) } ∧
      gemini.serveHTTP decG sendBlocking sendStreaming wr defaultUser r streaming =
        some { steps := [], reply := .error (apierrors.WriteJSONError 401 missingKey) } ∧
      apierrors.WriteJSONError 401 missingKey =
        { contentType := "application/json", statusCode := 401,
          body := { Error := "Unauthorized", Message := missingKey } } :=
  ⟨openai_no_key decO sendBlocking sendStreaming wr now defaultUser r h1 h2,
    gemini_no_key decG sendBlocking sendStreaming wr defaultUser r streaming h1 h2, rfl⟩

/-- C18, witness: the test request without key, on an upstream that would answer. -/
theorem missing_key_unauthorized_witness :
    (openai.ServeHTTP
        (fun _ => .ok { Model := "gpt-4", Messages := [{ Role := "user", Content := "hi" }],
                        Stream := false })
        (fun _ _ => .ok { MessageID := "msg-abc123", ConversationID := "conv-xyz789",
                          Mode := "blocking", Answer := "Hello from Dify", Metadata := [],
                          CreatedAt := 0 })
        (fun _ _ => .ok []) (fun _ => none) (fun _ => 0) "test-user"
        (bareRequest "/v1/chat/completions" "" "")).map (fun h => h.steps.length) = some 0 :=
  congrArg (Option.map (fun h => h.steps.length))
    (missing_key_unauthorized
      (fun _ => .ok { Model := "gpt-4", Messages := [{ Role := "user", Content := "hi" }],
                      Stream := false })
      (fun _ => .ok gemini.sampleRequest)
      (fun _ _ => .ok { MessageID := "msg-abc123", ConversationID := "conv-xyz789",
                        Mode := "blocking", Answer := "Hello from Dify", Metadata := [],
                        CreatedAt := 0 })
      (fun _ _ => .ok []) (fun _ => none) (fun _ => 0) "test-user"
      (bareRequest "/v1/chat/completions" "" "") false rfl rfl).1

/-- C19, on the code: the blocking test request that carries its key only as the query
parameter `key` is answered with status 401 and the upstream is not called, whatever the
decoder and the upstream are; the handler never looks at the query of the URL. -/
theorem gemini_query_key_unauthorized
    (dec : String → Except GoError gemini.GenerateContentRequest)
    (sendBlocking : String → dify.ChatRequest → Except GoError dify.BlockingResponse)
    (sendStreaming : String → dify.ChatRequest → Except GoError (List dify.StreamEvent))
    (wr : Nat → Option GoError) (defaultUser : String) :
    gemini.Dispatch dec sendBlocking sendStreaming wr defaultUser
        (bareRequest "/v1beta/models/gemini-pro:generateContent" "key=test-api-key-12345"
          gemini.sampleBody) =
      .served (some { steps := [],
                      reply := .error (apierrors.WriteJSONError 401 missingKey) }) := by
  have hs1 : strings.HasSuffix "/v1beta/models/gemini-pro:generateContent"
      ":streamGenerateContent" = false := by decide
  have hs2 : strings.HasSuffix "/v1beta/models/gemini-pro:generateContent"
      ":generateContent" = true := by decide
  unfold gemini.Dispatch
  simp only [bareRequest, hs1, hs2, if_true, Bool.false_eq_true, if_false]
  rw [gemini_no_key dec sendBlocking sendStreaming wr defaultUser _ false rfl rfl]

end adapter

namespace openai

/-- C20. For every upstream error text m, `writeUpstreamError` replies with status 504 and
message `upstream timeout` when m contains `context deadline exceeded` or `timeout`, and
otherwise with status 502 and the message `upstream error: ` followed by m; no other
status is produced, and the Gemini copy of the function gives the same reply. -/
theorem writeUpstreamError_classification (m : GoError) :
    ((strings.Contains m "context deadline exceeded" = true ∨
          strings.Contains m "timeout" = true) →
        writeUpstreamError m =
          { contentType := "application/json", statusCode := 504,
            body := { Error := "Gateway Timeout", Message := "upstream timeout" } }) ∧
      (¬ (strings.Contains m "context deadline exceeded" = true ∨
          strings.Contains m "timeout" = true) →
        writeUpstreamError m =
          { contentType := "application/json", statusCode := 502,
            body := { Error := "Bad Gateway", Message := "upstream error: " ++ m } }) ∧
      ((writeUpstreamError m).statusCode = 504 ∨ (writeUpstreamError m).statusCode = 502) ∧
      gemini.writeUpstreamError m = writeUpstreamError m := by
  by_cases h : strings.Contains m "context deadline exceeded" = true ∨
      strings.Contains m "timeout" = true
  · have hb : (strings.Contains m "context deadline exceeded" ||
        strings.Contains m "timeout") = true := by simpa using h
    have hv : writeUpstreamError m = apierrors.WriteJSONError 504 "upstream timeout" := by
      simp only [writeUpstreamError, hb, if_true]
    refine ⟨fun _ => by rw [hv]; rfl, fun hn => absurd h hn, Or.inl (by rw [hv]; rfl), rfl⟩
  · have hb : ¬ (strings.Contains m "context deadline exceeded" ||
        strings.Contains m "timeout") = true := by simpa using h
    have hv : writeUpstreamError m =
        apierrors.WriteJSONError 502 ("upstream error: " ++ m) := by
      unfold writeUpstreamError
      rw [if_neg hb]
    refine ⟨fun hp => absurd hp h, fun _ => by rw [hv]; rfl, Or.inr (by rw [hv]; rfl), rfl⟩

/-- C20, witness: a deadline error gives 504, the error of a refused upstream status 502. -/
theorem writeUpstreamError_classification_witness :
    writeUpstreamError "dify request: context deadline exceeded" =
        { contentType := "application/json", statusCode := 504,
          body := { Error := "Gateway Timeout", Message := "upstream timeout" } } ∧
      writeUpstreamError "dify 500: boom" =
        { contentType := "application/json", statusCode := 502,
          body := { Error := "Bad Gateway", Message := "upstream error: dify 500: boom" } } :=
  ⟨(writeUpstreamError_classification "dify request: context deadline exceeded").1
      (Or.inl (by decide)),
    (writeUpstreamError_classification "dify 500: boom").2.1 (by decide)⟩

end openai


/-! ## The upstream client -/

namespace dify

theorem SendBlocking_status (env : Env) (c : Client) (apiKey : String) (req : ChatRequest)
    (resp : Response) (body : String)
    (hm : ∀ q, env.marshal q = .ok body) (hn : env.newRequest c.chatURL = none)
    (hd : ∀ o, env.doBlocking o = .ok resp) :
    (SendBlocking env c apiKey req).2 =
      if resp.StatusCode < 200 ∨ resp.StatusCode ≥ 300 then
        .error ("dify " ++ toString resp.StatusCode ++ ": " ++ resp.Body)
      else
        match env.decodeBlocking resp.Body with
        | .error err => .error ("decode response: " ++ err)
        | .ok result => .ok result := by
  unfold SendBlocking
  simp only [hm, hn, hd]
  by_cases hs : resp.StatusCode < 200 ∨ resp.StatusCode ≥ 300
  · simp only [hs, if_true]
  · simp only [hs, if_false]
    cases env.decodeBlocking resp.Body <;> rfl

theorem SendStreaming_status (env : Env) (c : Client) (apiKey : String) (req : ChatRequest)
    (resp : Response) (body : String)
    (hm : ∀ q, env.marshal q = .ok body) (hn : env.newRequest c.chatURL = none)
    (hd : ∀ o, env.doStreaming o = .ok resp) :
    (SendStreaming env c apiKey req).2 =
      if resp.StatusCode < 200 ∨ resp.StatusCode ≥ 300 then
        .error ("dify " ++ toString resp.StatusCode ++ ": " ++ resp.Body)
      else .ok (ReadStream env.unmarshal resp.Lines resp.ScanErr) := by
  unfold SendStreaming
  simp only [hm, hn, hd]
  by_cases hs : resp.StatusCode < 200 ∨ resp.StatusCode ≥ 300
  · simp only [hs, if_true]
  · simp only [hs, if_false]

/-- C22. When the upstream answers with the response `resp` of status s, `SendBlocking` and
`SendStreaming` fail with the error `dify ` s `: ` body exactly when s < 200 or s >= 300,
and `SendStreaming` then returns no channel; for 200 <= s < 300 `SendStreaming` returns
the channel of `ReadStream` and `SendBlocking` the decoded body (or its decoding error). -/
theorem upstream_status_validation (env : Env) (c : Client) (apiKey : String)
    (req : ChatRequest) (resp : Response) (body : String)
    (hm : ∀ q, env.marshal q = .ok body) (hn : env.newRequest c.chatURL = none)
    (hb : ∀ o, env.doBlocking o = .ok resp) (hs : ∀ o, env.doStreaming o = .ok resp) :
    ((resp.StatusCode < 200 ∨ resp.StatusCode ≥ 300) →
        (SendBlocking env c apiKey req).2 =
            .error ("dify " ++ toString resp.StatusCode ++ ": " ++ resp.Body) ∧
          (SendStreaming env c apiKey req).2 =
            .error ("dify " ++ toString resp.StatusCode ++ ": " ++ resp.Body)) ∧
      ((200 ≤ resp.StatusCode ∧ resp.StatusCode < 300) →
        (SendStreaming env c apiKey req).2 =
            .ok (ReadStream env.unmarshal resp.Lines resp.ScanErr) ∧
          (SendBlocking env c apiKey req).2 =
            match env.decodeBlocking resp.Body with
            | .error err => .error ("decode response: " ++ err)
            | .ok result => .ok result) := by
  have h1 := SendBlocking_status env c apiKey req resp body hm hn hb
  have h2 := SendStreaming_status env c apiKey req resp body hm hn hs
  constructor
  · intro h
    rw [h1, h2]
    simp only [h, if_true, and_self]
  · intro h
    have hn : ¬ (resp.StatusCode < 200 ∨ resp.StatusCode ≥ 300) := by omega
    rw [h1, h2]
    simp only [hn, if_false, and_self]

/-- C22, witness: the statuses 199 and 300 fail, the status 200 passes. -/
theorem upstream_status_validation_witness :
    (SendStreaming (constEnv (plainResponse 199 "boom")) (NewClient "http://dify.local")
        "app-key" (plainRequest "hi" "test-user")).2 = .error "dify 199: boom" ∧
      (SendStreaming (constEnv (plainResponse 300 "boom")) (NewClient "http://dify.local")
        "app-key" (plainRequest "hi" "test-user")).2 = .error "dify 300: boom" ∧
      (SendStreaming (constEnv (plainResponse 200 "")) (NewClient "http://dify.local")
        "app-key" (plainRequest "hi" "test-user")).2 = .ok [] :=
  ⟨((upstream_status_validation (constEnv (plainResponse 199 "boom"))
      (NewClient "http://dify.local") "app-key" (plainRequest "hi" "test-user")
      (plainResponse 199 "boom") "" (fun _ => rfl) rfl (fun _ => rfl) (fun _ => rfl)).1
      (by decide)).2,
    ((upstream_status_validation (constEnv (plainResponse 300 "boom"))
      (NewClient "http://dify.local") "app-key" (plainRequest "hi" "test-user")
      (plainResponse 300 "boom") "" (fun _ => rfl) rfl (fun _ => rfl) (fun _ => rfl)).1
      (by decide)).2,
    ((upstream_status_validation (constEnv (plainResponse 200 ""))
      (NewClient "http://dify.local") "app-key" (plainRequest "hi" "test-user")
      (plainResponse 200 "") "" (fun _ => rfl) rfl (fun _ => rfl) (fun _ => rfl)).2
      (by decide)).1⟩

/-- C23, as stated, fails: after `SendBlocking` the field `ResponseMode` of the request
is `blocking`, after `SendStreaming` it is `streaming`, whatever it was before. -/
theorem request_mutated_counterexample :
    (plainRequest "hi" "test-user").ResponseMode = "" ∧
      (SendBlocking (constEnv (plainResponse 200 "")) (NewClient "http://dify.local")
        "app-key" (plainRequest "hi" "test-user")).1.ResponseMode = "blocking" ∧
      (SendStreaming (constEnv (plainResponse 200 "")) (NewClient "http://dify.local")
        "app-key" (plainRequest "hi" "test-user")).1.ResponseMode = "streaming" := by
  refine ⟨rfl, by decide, by decide⟩

/-- C23, amended. The client changes one field of the request handed to it and no other:
after `SendBlocking` the request is the one before the call with `ResponseMode` set to
`blocking`, after `SendStreaming` with `ResponseMode` set to `streaming`, whether the call
succeeds or not. -/
theorem request_only_mode_set (env : Env) (c : Client) (apiKey : String)
    (req : ChatRequest) :
    (SendBlocking env c apiKey req).1 = { req with ResponseMode := "blocking" } ∧
      (SendStreaming env c apiKey req).1 = { req with ResponseMode := "streaming" } := by
  constructor
  · unfold SendBlocking
    simp only
    split
    · rfl
    · split
      · rfl
      · split
        · rfl
        · split
          · rfl
          · split <;> rfl
  · unfold SendStreaming
    simp only
    split
    · rfl
    · split
      · rfl
      · split
        · rfl
        · split <;> rfl

end dify


namespace strings

theorem slash_contains (c : Char) : "/".data.contains c = true ↔ c = '/' := by
  have h : "/".data = ['/'] := rfl
  rw [h]
  simp

theorem trimSlash_replicate (l : List Char) (k : Nat) :
    ((l ++ List.replicate k '/').reverse.dropWhile (fun c => "/".data.contains c)).reverse =
      (l.reverse.dropWhile (fun c => "/".data.contains c)).reverse := by
  induction k with
  | zero => simp
  | succ k ih =>
    rw [List.replicate_succ', ← List.append_assoc, List.reverse_append, List.reverse_singleton,
      List.singleton_append, List.dropWhile_cons]
    have hp : "/".data.contains '/' = true := (slash_contains '/').mpr rfl
    simp only [hp, if_true]
    exact ih

theorem trimSlash_self (x : List Char) (c : Char) (hc : c ≠ '/') :
    ((x ++ [c]).reverse.dropWhile (fun c => "/".data.contains c)).reverse = x ++ [c] := by
  rw [List.reverse_append, List.reverse_singleton, List.singleton_append, List.dropWhile_cons]
  have hp : ¬ ("/".data.contains c = true) := fun h => hc ((slash_contains c).mp h)
  simp only [hp, if_false]
  simp

theorem trimSlash_spec (l : List Char) :
    ∃ k, l = (l.reverse.dropWhile (fun c => "/".data.contains c)).reverse ++
        List.replicate k '/' ∧
      (l.reverse.dropWhile (fun c => "/".data.contains c)).reverse.getLast? ≠ some '/' := by
  induction l using List.reverseRecOn with
  | nil => exact ⟨0, by simp, by simp⟩
  | append_singleton l c ih =>
    by_cases hc : c = '/'
    · obtain ⟨k, h1, h2⟩ := ih
      have ht := trimSlash_replicate l 1
      simp only [List.replicate_one] at ht
      subst hc
      refine ⟨k + 1, ?_, ?_⟩
      · rw [ht, List.replicate_succ', ← List.append_assoc, ← h1]
      · rw [ht]
        exact h2
    · refine ⟨0, ?_, ?_⟩
      · rw [trimSlash_self l c hc]
        simp
      · rw [trimSlash_self l c hc]
        simp [hc]

end strings

namespace dify

theorem endpoint_data_suffix (u : String) :
    ∃ x, (endpoint u).data = x ++ "/v1/chat-message".data ++ ['s'] := by
  unfold endpoint
  by_cases h : strings.HasSuffix (strings.TrimRight u "/") "/v1/chat-messages" = true
  · rw [if_neg (not_not.mpr h)]
    unfold strings.HasSuffix at h
    rw [List.isSuffixOf_iff_suffix] at h
    obtain ⟨x, hx⟩ := h
    refine ⟨x, ?_⟩
    rw [← hx, List.append_assoc]
    rfl
  · rw [if_pos h]
    refine ⟨(strings.TrimRight u "/").data, ?_⟩
    rw [String.data_append, List.append_assoc]
    rfl

theorem endpoint_HasSuffix (u : String) :
    strings.HasSuffix (endpoint u) "/v1/chat-messages" = true := by
  obtain ⟨x, hx⟩ := endpoint_data_suffix u
  unfold strings.HasSuffix
  rw [List.isSuffixOf_iff_suffix, hx]
  exact ⟨x, by rw [List.append_assoc]; rfl⟩

theorem endpoint_slashes (u : String) (k : Nat) :
    endpoint (endpoint u ++ ⟨List.replicate k '/'⟩) = endpoint u := by
  obtain ⟨x, hx⟩ := endpoint_data_suffix u
  have ht : strings.TrimRight (endpoint u ++ ⟨List.replicate k '/'⟩) "/" = endpoint u := by
    apply String.ext
    unfold strings.TrimRight
    simp only [String.data_append]
    rw [strings.trimSlash_replicate, hx, strings.trimSlash_self _ 's' (by decide)]
  have hs := endpoint_HasSuffix u
  rw [endpoint, ht]
  exact if_neg (not_not.mpr hs)

/-- C25. For every base URL u the endpoint of `NewClient` is u without its trailing
slashes, followed by `/v1/chat-messages` unless the trimmed text already ends with it.  It
always ends with `/v1/chat-messages`, and normalising an endpoint again, with any number
of slashes added at its end, returns it unchanged. -/
theorem NewClient_endpoint (u : String) :
    (∃ k, u.data = (strings.TrimRight u "/").data ++ List.replicate k '/' ∧
        (strings.TrimRight u "/").data.getLast? ≠ some '/') ∧
      (NewClient u).chatURL =
        (if strings.HasSuffix (strings.TrimRight u "/") "/v1/chat-messages" = true then
          strings.TrimRight u "/"
        else strings.TrimRight u "/" ++ "/v1/chat-messages") ∧
      strings.HasSuffix (NewClient u).chatURL "/v1/chat-messages" = true ∧
      NewClient (NewClient u).chatURL = NewClient u ∧
      (∀ k, NewClient ((NewClient u).chatURL ++ ⟨List.replicate k '/'⟩) = NewClient u) := by
  refine ⟨strings.trimSlash_spec u.data, ?_, endpoint_HasSuffix u, ?_, ?_⟩
  · unfold NewClient endpoint
    by_cases h : strings.HasSuffix (strings.TrimRight u "/") "/v1/chat-messages" = true
    · simp [h]
    · simp [h]
  · have h0 := endpoint_slashes u 0
    simp only [List.replicate_zero] at h0
    have he : endpoint u ++ (⟨[]⟩ : String) = endpoint u := String.append_empty _
    rw [he] at h0
    simp only [NewClient, h0]
  · intro k
    simp only [NewClient, endpoint_slashes u k]

/-- C25, witness: a base host and its full endpoint give the same client. -/
theorem NewClient_endpoint_witness :
    NewClient "https://aigc.example.com/dify/server/" =
        { chatURL := "https://aigc.example.com/dify/server/v1/chat-messages" } ∧
      NewClient "https://aigc.example.com/dify/server/v1/chat-messages" =
        NewClient "https://aigc.example.com/dify/server/" :=
  ⟨by decide,
    ((congrArg NewClient (show "https://aigc.example.com/dify/server/v1/chat-messages" =
        (NewClient "https://aigc.example.com/dify/server/").chatURL by decide)).trans
      (NewClient_endpoint "https://aigc.example.com/dify/server/").2.2.2.1)⟩

end dify

/-! ### Claims on upstream failures and on flattening -/

namespace adapter

/-- C21, as stated, fails: an upstream status 504 whose body holds the word `timeout` gives
the caller the status 504 and the message `upstream timeout`, without the body, on the
OpenAI endpoint and on the Gemini `generateContent` endpoint alike. -/
theorem upstream_body_counterexample :
    replyError (openai.ServeHTTP (fun _ => .ok openai.sampleChat)
        (fun k q => (dify.SendBlocking
          (dify.constEnv (dify.plainResponse 504 "upstream request timeout"))
          (dify.NewClient "http://dify.local") k q).2)
        (fun _ _ => .ok []) (fun _ => none) (fun _ => 0) "test-user"
        (bearerRequest "test-api-key-12345" "/v1/chat/completions" "")) =
      some { contentType := "application/json", statusCode := 504,
             body := { Error := "Gateway Timeout", Message := "upstream timeout" } } ∧
    replyError (gemini.serveHTTP (fun _ => .ok gemini.sampleRequest)
        (fun k q => (dify.SendBlocking
          (dify.constEnv (dify.plainResponse 504 "upstream request timeout"))
          (dify.NewClient "http://dify.local") k q).2)
        (fun _ _ => .ok []) (fun _ => none) "test-user"
        (bearerRequest "test-api-key-12345" "/v1beta/models/gemini-pro:generateContent" "")
        false) =
      some { contentType := "application/json", statusCode := 504,
             body := { Error := "Gateway Timeout", Message := "upstream timeout" } } := by
  constructor <;> decide

/-- C21, amended. For every upstream response with a status s outside 200..299 and body B,
a blocking call with a key and a body that decodes gets, from the OpenAI handler and from
the Gemini handler alike, the reply of `writeUpstreamError` on the text `dify ` s `: ` B:
the status 502 and the message `upstream error: dify ` s `: ` B, which ends with B
verbatim, unless that text contains `context deadline exceeded` or `timeout`, in which
case the status is 504 and the message `upstream timeout`. -/
theorem upstream_body_surfaced (env : dify.Env) (c : dify.Client)
    (sendStreaming : String → dify.ChatRequest → Except GoError (List dify.StreamEvent))
    (wr : Nat → Option GoError) (user : String) (r : http.Request)
    (resp : dify.Response) (body : String)
    (hk : (httputil.ExtractCredentials r user).APIKey ≠ "")
    (hm : ∀ q, env.marshal q = .ok body) (hn : env.newRequest c.chatURL = none)
    (hb : ∀ o, env.doBlocking o = .ok resp)
    (hs : resp.StatusCode < 200 ∨ resp.StatusCode ≥ 300) :
    (∀ (dec : String → Except GoError openai.ChatCompletionRequest)
        (rq : openai.ChatCompletionRequest) (now : Nat → Int),
      dec r.Body = .ok rq → rq.Messages ≠ [] → rq.Stream = false →
        replyError (openai.ServeHTTP dec (fun k q => (dify.SendBlocking env c k q).2)
            sendStreaming wr now user r) =
            some (openai.writeUpstreamError
                ("dify " ++ toString resp.StatusCode ++ ": " ++ resp.Body)) ∧
          (¬ (strings.Contains
              ("dify " ++ toString resp.StatusCode ++ ": " ++ resp.Body)
              "context deadline exceeded" = true ∨
              strings.Contains
                  ("dify " ++ toString resp.StatusCode ++ ": " ++ resp.Body) "timeout" = true) →
            replyError (openai.ServeHTTP dec (fun k q => (dify.SendBlocking env c k q).2)
              sendStreaming wr now user r) =
              some { contentType := "application/json", statusCode := 502,
                     body := { Error := "Bad Gateway",
                               Message := "upstream error: " ++
                                 ("dify " ++ toString resp.StatusCode ++ ": ") ++
                                 resp.Body } }) ∧
          ((strings.Contains
              ("dify " ++ toString resp.StatusCode ++ ": " ++ resp.Body)
              "context deadline exceeded" = true ∨
              strings.Contains
                  ("dify " ++ toString resp.StatusCode ++ ": " ++ resp.Body) "timeout" = true) →
            replyError (openai.ServeHTTP dec (fun k q => (dify.SendBlocking env c k q).2)
              sendStreaming wr now user r) =
              some { contentType := "application/json", statusCode := 504,
                     body := { Error := "Gateway Timeout",
                               Message := "upstream timeout" } })) ∧
    (∀ (decG : String → Except GoError gemini.GenerateContentRequest)
        (rqG : gemini.GenerateContentRequest),
      decG r.Body = .ok rqG → rqG.Contents ≠ [] →
        replyError (gemini.serveHTTP decG (fun k q => (dify.SendBlocking env c k q).2)
            sendStreaming wr user r false) =
            some (gemini.writeUpstreamError
                ("dify " ++ toString resp.StatusCode ++ ": " ++ resp.Body)) ∧
          (¬ (strings.Contains
              ("dify " ++ toString resp.StatusCode ++ ": " ++ resp.Body)
              "context deadline exceeded" = true ∨
              strings.Contains
                  ("dify " ++ toString resp.StatusCode ++ ": " ++ resp.Body) "timeout" = true) →
            replyError (gemini.serveHTTP decG
              (fun k q => (dify.SendBlocking env c k q).2) sendStreaming wr user r false) =
              some { contentType := "application/json", statusCode := 502,
                     body := { Error := "Bad Gateway",
                               Message := "upstream error: " ++
                                 ("dify " ++ toString resp.StatusCode ++ ": ") ++
                                 resp.Body } }) ∧
          ((strings.Contains
              ("dify " ++ toString resp.StatusCode ++ ": " ++ resp.Body)
              "context deadline exceeded" = true ∨
              strings.Contains
                  ("dify " ++ toString resp.StatusCode ++ ": " ++ resp.Body) "timeout" = true) →
            replyError (gemini.serveHTTP decG
              (fun k q => (dify.SendBlocking env c k q).2) sendStreaming wr user r false) =
              some { contentType := "application/json", statusCode := 504,
                     body := { Error := "Gateway Timeout",
                               Message := "upstream timeout" } })) := by
  have hS : ∀ k q, (dify.SendBlocking env c k q).2 = .error
      ("dify " ++ toString resp.StatusCode ++ ": " ++ resp.Body) := by
    intro k q
    rw [dify.SendBlocking_status env c k q resp body hm hn hb]
    simp only [hs, if_true]
  have h502 : ¬ (strings.Contains
      ("dify " ++ toString resp.StatusCode ++ ": " ++ resp.Body)
      "context deadline exceeded" = true ∨
        strings.Contains
            ("dify " ++ toString resp.StatusCode ++ ": " ++ resp.Body) "timeout" = true) →
      ¬ ((strings.Contains
          ("dify " ++ toString resp.StatusCode ++ ": " ++ resp.Body) "context deadline exceeded" ||
        strings.Contains
            ("dify " ++ toString resp.StatusCode ++ ": " ++ resp.Body) "timeout") = true) := by
    intro hno
    simpa using hno
  have h504 : (strings.Contains
      ("dify " ++ toString resp.StatusCode ++ ": " ++ resp.Body)
      "context deadline exceeded" = true ∨
        strings.Contains
            ("dify " ++ toString resp.StatusCode ++ ": " ++ resp.Body) "timeout" = true) →
      (strings.Contains
          ("dify " ++ toString resp.StatusCode ++ ": " ++ resp.Body) "context deadline exceeded" ||
        strings.Contains
            ("dify " ++ toString resp.StatusCode ++ ": " ++ resp.Body) "timeout") = true := by
    intro hyes
    simpa using hyes
  refine ⟨fun dec rq now hd hne hst => ?_, fun decG rqG hdG hneG => ?_⟩
  · obtain ⟨init, x, hx⟩ := (List.eq_nil_or_concat rq.Messages).resolve_left hne
    rw [List.concat_eq_append] at hx
    have hf := openai.openai_flattenMessages_concat init x
    rw [← hx] at hf
    have key : replyError (openai.ServeHTTP dec (fun k q => (dify.SendBlocking env c k q).2)
        sendStreaming wr now user r) = some (openai.writeUpstreamError
            ("dify " ++ toString resp.StatusCode ++ ": " ++ resp.Body)) := by
      unfold openai.ServeHTTP
      simp [hk, openai.ToDifyRequest, hd, hf, hne, hst, hS, replyError]
    refine ⟨key, fun hno => ?_, fun hyes => ?_⟩
    · rw [key]
      unfold openai.writeUpstreamError
      rw [if_neg (h502 hno)]
      simp only [apierrors.WriteJSONError, String.append_assoc]
      rfl
    · rw [key]
      unfold openai.writeUpstreamError
      rw [if_pos (h504 hyes)]
      rfl
  · obtain ⟨initG, y, hy⟩ := (List.eq_nil_or_concat rqG.Contents).resolve_left hneG
    rw [List.concat_eq_append] at hy
    have hfG := gemini.gemini_flattenContents_concat initG y rqG.SystemInstruction
    rw [← hy] at hfG
    have hlen : ¬ rqG.Contents.length = 0 := fun h0 => hneG (List.length_eq_zero.mp h0)
    have keyG : replyError (gemini.serveHTTP decG
        (fun k q => (dify.SendBlocking env c k q).2) sendStreaming wr user r false) =
        some (gemini.writeUpstreamError
            ("dify " ++ toString resp.StatusCode ++ ": " ++ resp.Body)) := by
      unfold gemini.serveHTTP
      simp [hk, gemini.ToDifyRequest, hdG, hfG, hlen, hS, replyError]
    refine ⟨keyG, fun hno => ?_, fun hyes => ?_⟩
    · rw [keyG]
      unfold gemini.writeUpstreamError
      rw [if_neg (h502 hno)]
      simp only [apierrors.WriteJSONError, String.append_assoc]
      rfl
    · rw [keyG]
      unfold gemini.writeUpstreamError
      rw [if_pos (h504 hyes)]
      rfl

/-- C21, witness: the status 500 with the body `boom` gives 502 with `boom` in the
message, on the OpenAI endpoint and on the Gemini `generateContent` endpoint. -/
theorem upstream_body_surfaced_witness :
    replyError (openai.ServeHTTP (fun _ => .ok openai.sampleChat)
        (fun k q => (dify.SendBlocking (dify.constEnv (dify.plainResponse 500 "boom"))
          (dify.NewClient "http://dify.local") k q).2)
        (fun _ _ => .ok []) (fun _ => none) (fun _ => 0) "test-user"
        (bearerRequest "test-api-key-12345" "/v1/chat/completions" "")) =
      some { contentType := "application/json", statusCode := 502,
             body := { Error := "Bad Gateway",
                       Message := "upstream error: dify 500: boom" } } ∧
    replyError (gemini.serveHTTP (fun _ => .ok gemini.sampleRequest)
        (fun k q => (dify.SendBlocking (dify.constEnv (dify.plainResponse 500 "boom"))
          (dify.NewClient "http://dify.local") k q).2)
        (fun _ _ => .ok []) (fun _ => none) "test-user"
        (bearerRequest "test-api-key-12345" "/v1beta/models/gemini-pro:generateContent" "")
        false) =
      some { contentType := "application/json", statusCode := 502,
             body := { Error := "Bad Gateway",
                       Message := "upstream error: dify 500: boom" } } :=
  ⟨((((upstream_body_surfaced (dify.constEnv (dify.plainResponse 500 "boom"))
      (dify.NewClient "http://dify.local") (fun _ _ => .ok []) (fun _ => none) "test-user"
      (bearerRequest "test-api-key-12345" "/v1/chat/completions" "")
      (dify.plainResponse 500 "boom") ""
      (by decide) (fun _ => rfl) rfl (fun _ => rfl) (by decide)).1
        (fun _ => .ok openai.sampleChat) openai.sampleChat (fun _ => 0) rfl (by decide)
        rfl).2.1) (by decide)).trans (by decide),
   ((((upstream_body_surfaced (dify.constEnv (dify.plainResponse 500 "boom"))
      (dify.NewClient "http://dify.local") (fun _ _ => .ok []) (fun _ => none) "test-user"
      (bearerRequest "test-api-key-12345" "/v1beta/models/gemini-pro:generateContent" "")
      (dify.plainResponse 500 "boom") ""
      (by decide) (fun _ => rfl) rfl (fun _ => rfl) (by decide)).2
        (fun _ => .ok gemini.sampleRequest) gemini.sampleRequest rfl
        (by decide)).2.1) (by decide)).trans (by decide)⟩

/-- C26. For every message list, `anthropic.flattenMessages` with an empty system text
returns the query `openai.flattenMessages` returns on the same roles and contents, and with
a non-empty system text S it returns `system: ` S, a newline, and then what it returns
with the empty system text. -/
theorem anthropic_refines_openai (msgs : List anthropic.Message) (S : String)
    (hS : S ≠ "") :
    anthropic.flattenMessages msgs "" =
        (openai.flattenMessages (msgs.map asOpenAI)).map Prod.fst ∧
      anthropic.flattenMessages msgs S =
        (anthropic.flattenMessages msgs "").map (fun q => "system: " ++ S ++ "\n" ++ q) := by
  rcases List.eq_nil_or_concat msgs with hnil | ⟨init, x, hx⟩
  · subst hnil
    constructor <;> rfl
  · rw [List.concat_eq_append] at hx
    subst hx
    have hl : List.map openai.line (List.map asOpenAI init) = List.map anthropic.line init := by
      rw [List.map_map]
      rfl
    constructor
    · rw [List.map_append, List.map_cons, List.map_nil,
        openai.openai_flattenMessages_concat, anthropic.anthropic_flattenMessages_concat, hl]
      simp [anthropic.systemText, asOpenAI]
    · rw [anthropic.anthropic_flattenMessages_concat,
        anthropic.anthropic_flattenMessages_concat]
      simp [anthropic.systemText, hS, String.append_assoc]

/-- C26, witness: a two-message conversation with the system text `be brief`. -/
theorem anthropic_refines_openai_witness :
    anthropic.flattenMessages
        [{ Role := "user", Content := "What is 2+2?" }, { Role := "user", Content := "Why?" }]
        "be brief" = some "system: be brief\nuser: What is 2+2?\nWhy?" :=
  ((anthropic_refines_openai
    [{ Role := "user", Content := "What is 2+2?" }, { Role := "user", Content := "Why?" }]
    "be brief" (by decide)).2).trans (by decide)

end adapter

namespace gemini

theorem foldl_append_concat (l : List String) (acc : String) :
    l.foldl (fun r s => r ++ s) acc = acc ++ strings.concat l := by
  induction l generalizing acc with
  | nil => simp [strings.concat]
  | cons a t ih => rw [List.foldl_cons, ih, strings.concat, String.append_assoc]

/-- C27. The text of a content is the concatenation of the texts of its parts, with no
separator.  For contents c1..cn the query is, for each content but the last, its role (the
role `model` written `assistant`), `: `, its text and a newline, followed by the text of
cn; a system instruction with at least one part puts `system: `, its joined text and a
newline in front, an absent instruction or one with no part puts nothing. -/
theorem gemini_flattenContents_spec (prior : List Content) (last : Content)
    (parts : List Part) :
    joinParts parts = strings.concat (parts.map (fun p => p.Text)) ∧
      flattenContents (prior ++ [last]) none =
        some (strings.concat (prior.map (fun c =>
          (if c.Role = "model" then "assistant" else c.Role) ++ ": " ++
            joinParts c.Parts ++ "\n")) ++ joinParts last.Parts) ∧
      flattenContents (prior ++ [last]) (some { Parts := [] }) =
        flattenContents (prior ++ [last]) none ∧
      (∀ p ps, flattenContents (prior ++ [last]) (some { Parts := p :: ps }) =
        some ("system: " ++ joinParts (p :: ps) ++ "\n" ++
          strings.concat (prior.map (fun c =>
            (if c.Role = "model" then "assistant" else c.Role) ++ ": " ++
              joinParts c.Parts ++ "\n")) ++ joinParts last.Parts)) := by
  refine ⟨?_, ?_, ?_, ?_⟩
  · unfold joinParts String.join
    rw [foldl_append_concat, String.empty_append]
  · rw [gemini_flattenContents_concat]
    simp [systemText]
    rfl
  · rw [gemini_flattenContents_concat, gemini_flattenContents_concat]
    simp [systemText]
  · intro p ps
    rw [gemini_flattenContents_concat]
    simp [systemText]
    rfl

end gemini

/-! ### Claims on ignored lines, on the agreement of the encoders and on the built request -/

namespace dify

open strings

theorem pending_append (a b : List String) (d : String) :
    pending d (a ++ b) = pending (pending d a) b := by
  induction a generalizing d with
  | nil => rfl
  | cons line rest ih =>
    simp only [List.cons_append]
    rw [pending, pending]
    cases CutPrefix line "data:" with
    | some r => exact ih _
    | none =>
      by_cases hb : line = "" ∧ d ≠ ""
      · simp only [hb, and_self, if_true, ne_eq, not_false_eq_true]
        exact ih _
      · simp only [hb, if_false]
        exact ih _

/-- C28. A line that is neither empty nor starts with `data:` is ignored: inserting it at
any position of the input leaves the events sent unchanged, however the input ends, and
after it the pending content is what it was before it, so it neither closes nor resets a
block. -/
theorem ReadStream_other_line_ignored (u : String → Except GoError StreamEvent)
    (se : Option GoError) (pre post : List String) (line : String)
    (h1 : line ≠ "") (h2 : ¬ ∃ rest, line = "data:" ++ rest) :
    ReadStream u (pre ++ line :: post) se = ReadStream u (pre ++ post) se ∧
      (∀ d, pending d (pre ++ [line]) = pending d pre) ∧
      (∀ d, contents d [line] = []) := by
  have hc : CutPrefix line "data:" = none := CutPrefix_none line "data:" h2
  refine ⟨?_, ?_, ?_⟩
  · unfold ReadStream
    apply readLoop_append_congr
    intro d
    rw [readLoop]
    simp only [hc, h1, false_and, if_false]
  · intro d
    rw [pending_append]
    simp only [pending, hc, h1, false_and, if_false]
  · intro d
    simp only [contents, hc, h1, false_and, if_false]

/-- C28, witness: an `event:` line between the `data:` line of a block and its blank
line. -/
theorem ReadStream_other_line_ignored_witness :
    ReadStream json.jsonUnmarshal
        (["data: " ++ sampleHel] ++ "event: message" :: [""]) none =
      ReadStream json.jsonUnmarshal (["data: " ++ sampleHel] ++ [""]) none :=
  (ReadStream_other_line_ignored json.jsonUnmarshal none ["data: " ++ sampleHel] [""]
    "event: message" (by decide)
    (by
      rintro ⟨rest, h⟩
      have hc := CutPrefix_append "data:" rest
      rw [← h] at hc
      have hn : CutPrefix "event: message" "data:" = none := by decide
      rw [hn] at hc
      cases hc)).1

end dify

namespace openai

theorem deltaFrames_content (now : Nat → Int) (model : String)
    (toks : List dify.StreamEvent) (k : Nat) :
    (deltaFrames now model k toks).filterMap Frame.content =
      toks.map (fun e => e.Answer) := by
  induction toks generalizing k with
  | nil => rfl
  | cons ev rest ih =>
    simp only [deltaFrames, List.filterMap_cons, Frame.content, chunk, List.map_cons,
      List.map_nil, ih]
    simp [String.join]

end openai

namespace anthropic

theorem deltaFrame_text (toks : List dify.StreamEvent) :
    (toks.map deltaFrame).filterMap Frame.text = toks.map (fun e => e.Answer) := by
  induction toks with
  | nil => rfl
  | cons ev rest ih =>
    simp only [List.map_cons, List.filterMap_cons, ih]
    simp [deltaFrame, Frame.text, delta]

theorem deltaFrame_text_comp (toks : List dify.StreamEvent) :
    List.filterMap (Frame.text ∘ deltaFrame) toks = toks.map (fun e => e.Answer) := by
  rw [← List.filterMap_map]
  exact deltaFrame_text toks

end anthropic

namespace gemini

theorem chunk_text_one (ev : dify.StreamEvent) : (Frame.data (chunk ev)).text = ev.Answer := by
  simp [Frame.text, chunk, joinParts, String.join]

theorem chunk_text (toks : List dify.StreamEvent) :
    (toks.map (fun ev => Frame.data (chunk ev))).map Frame.text =
      toks.map (fun e => e.Answer) := by
  induction toks with
  | nil => rfl
  | cons ev rest ih =>
    simp only [List.map_cons, ih]
    simp [Frame.text, chunk, joinParts, String.join]

end gemini

namespace adapter

open dify

theorem beforeErr_split (evs : List StreamEvent) :
    (evs = beforeErr evs ∧ ∀ x ∈ evs, x.Err = none) ∨
      ∃ e c post, evs = beforeErr evs ++ e :: post ∧ e.Err = some c ∧
        ∀ x ∈ beforeErr evs, x.Err = none := by
  induction evs with
  | nil => exact Or.inl ⟨rfl, by simp⟩
  | cons a t ih =>
    cases ha : a.Err with
    | some c =>
      refine Or.inr ⟨a, c, t, ?_, ha, ?_⟩
      · simp [beforeErr, List.takeWhile_cons, ha]
      · simp [beforeErr, List.takeWhile_cons, ha]
    | none =>
      have hb : beforeErr (a :: t) = a :: beforeErr t := by
        simp [beforeErr, List.takeWhile_cons, ha]
      rcases ih with ⟨h1, h2⟩ | ⟨e, c, post, h1, h2, h3⟩
      · refine Or.inl ⟨by rw [hb, ← h1], ?_⟩
        intro x hx
        rcases List.mem_cons.mp hx with rfl | hx
        · exact ha
        · exact h2 x hx
      · refine Or.inr ⟨e, c, post, ?_, h2, ?_⟩
        · rw [hb, List.cons_append, ← h1]
        · intro x hx
          rw [hb] at hx
          rcases List.mem_cons.mp hx with rfl | hx
          · exact ha
          · exact h3 x hx

/-- C29. On a writer that accepts every write, for every event sequence the text fragments
carried by the chunk frames of the OpenAI encoder, by the delta frames of the Anthropic
encoder and by the candidate frames of the Gemini encoder are the same list: the answers of
the token events that come before the first event with `Err` set, in arrival order. -/
theorem encoders_agree_on_content (wr : Nat → Option GoError) (now : Nat → Int)
    (model : String) (evs : List StreamEvent) (hw : ∀ k, wr k = none) :
    (openai.WriteStreamingResponse wr now model evs).1.filterMap openai.Frame.content =
        (tokens (beforeErr evs)).map (fun e => e.Answer) ∧
      (anthropic.WriteStreamingResponse wr model evs).1.filterMap anthropic.Frame.text =
        (tokens (beforeErr evs)).map (fun e => e.Answer) ∧
      (gemini.WriteStreamingResponse wr evs).1.map gemini.Frame.text =
        (tokens (beforeErr evs)).map (fun e => e.Answer) := by
  rcases beforeErr_split evs with ⟨h1, h2⟩ | ⟨e, c, post, h1, h2, h3⟩
  · have ho := openai.openai_writeLoop_append wr now model hw evs [] h2 0
    have ha := anthropic.anthropic_deltaLoop_append wr hw evs [] h2 2
    have hg := gemini.gemini_writeLoop_append wr hw evs [] h2 0
    simp only [List.append_nil] at ho ha hg
    rw [← h1]
    refine ⟨?_, ?_, ?_⟩
    · unfold openai.WriteStreamingResponse
      rw [ho]
      simp [openai.writeLoop, hw, List.filterMap_append, openai.deltaFrames_content,
        openai.Frame.content]
    · unfold anthropic.WriteStreamingResponse
      simp only [anthropic.writeSSEEvent, hw]
      rw [ha]
      simp [anthropic.deltaLoop, anthropic.writeSSEEvent, hw, List.filterMap_append,
        anthropic.deltaFrame_text_comp, anthropic.Frame.text, anthropic.blockStart]
    · unfold gemini.WriteStreamingResponse
      rw [hg]
      simp [gemini.writeLoop, gemini.chunk_text_one]
  · have ho := openai.openai_writeLoop_append wr now model hw (beforeErr evs) (e :: post) h3 0
    have ha := anthropic.anthropic_deltaLoop_append wr hw (beforeErr evs) (e :: post) h3 2
    have hg := gemini.gemini_writeLoop_append wr hw (beforeErr evs) (e :: post) h3 0
    rw [← h1] at ho ha hg
    refine ⟨?_, ?_, ?_⟩
    · unfold openai.WriteStreamingResponse
      rw [ho]
      simp [openai.writeLoop, h2, openai.deltaFrames_content]
    · unfold anthropic.WriteStreamingResponse
      simp only [anthropic.writeSSEEvent, hw]
      rw [ha]
      simp [anthropic.deltaLoop, h2, List.filterMap_append, anthropic.deltaFrame_text_comp,
        anthropic.Frame.text, anthropic.blockStart]
    · unfold gemini.WriteStreamingResponse
      rw [hg]
      simp [gemini.writeLoop, h2, gemini.chunk_text_one]

/-- C29, witness: two token events, a `message_end` event, a transport error and a token
event after it. -/
theorem encoders_agree_on_content_witness :
    (gemini.WriteStreamingResponse (fun _ => none)
        [tokenEvent "Hel", tokenEvent "lo", { StreamEvent.zero with Event := "message_end" },
         errEvent "connection reset", tokenEvent "!"]).1.map gemini.Frame.text =
      ["Hel", "lo"] :=
  ((encoders_agree_on_content (fun _ => none) (fun _ => 0) "dify"
    [tokenEvent "Hel", tokenEvent "lo", { StreamEvent.zero with Event := "message_end" },
     errEvent "connection reset", tokenEvent "!"] (fun _ => rfl)).2.2).trans (by decide)

/-- C30. Whenever `ToDifyRequest` returns a request, in each of the three adapters, that
request has an empty `Inputs` map, an empty `ConversationID`, no `Files`, an empty
`ResponseMode` and the user passed in: it is determined by its `Query` and that user. -/
theorem built_request_fields
    (decO : String → Except GoError openai.ChatCompletionRequest)
    (decA : String → Except GoError anthropic.MessagesRequest)
    (decG : String → Except GoError gemini.GenerateContentRequest)
    (r : http.Request) (user : String) (streaming : Bool) :
    (∀ q s, openai.ToDifyRequest decO r user = some (.ok (q, s)) →
        q.Inputs = [] ∧ q.ConversationID = "" ∧ q.Files = [] ∧ q.User = user ∧
          q = plainRequest q.Query user) ∧
      (∀ q s, anthropic.ToDifyRequest decA r user = some (.ok (q, s)) →
        q.Inputs = [] ∧ q.ConversationID = "" ∧ q.Files = [] ∧ q.User = user ∧
          q = plainRequest q.Query user) ∧
      (∀ q s, gemini.ToDifyRequest decG r user streaming = some (.ok (q, s)) →
        q.Inputs = [] ∧ q.ConversationID = "" ∧ q.Files = [] ∧ q.User = user ∧
          q = plainRequest q.Query user) := by
  refine ⟨?_, ?_, ?_⟩
  · intro q s h
    unfold openai.ToDifyRequest at h
    cases hd : decO r.Body with
    | error e => simp [hd] at h
    | ok req =>
      simp only [hd] at h
      by_cases hl : req.Messages.length = 0
      · simp [hl] at h
      · simp only [hl, if_false] at h
        cases hf : openai.flattenMessages req.Messages with
        | none => simp [hf] at h
        | some v =>
          simp only [hf, Option.some.injEq, Except.ok.injEq, Prod.mk.injEq] at h
          obtain ⟨hq, _⟩ := h
          subst hq
          exact ⟨rfl, rfl, rfl, rfl, rfl⟩
  · intro q s h
    unfold anthropic.ToDifyRequest at h
    cases hd : decA r.Body with
    | error e => simp [hd] at h
    | ok req =>
      simp only [hd] at h
      by_cases hl : req.Messages.length = 0
      · simp [hl] at h
      · simp only [hl, if_false] at h
        cases hf : anthropic.flattenMessages req.Messages req.System with
        | none => simp [hf] at h
        | some v =>
          simp only [hf, Option.some.injEq, Except.ok.injEq, Prod.mk.injEq] at h
          obtain ⟨hq, _⟩ := h
          subst hq
          exact ⟨rfl, rfl, rfl, rfl, rfl⟩
  · intro q s h
    unfold gemini.ToDifyRequest at h
    cases hd : decG r.Body with
    | error e => simp [hd] at h
    | ok req =>
      simp only [hd] at h
      by_cases hl : req.Contents.length = 0
      · simp [hl] at h
      · simp only [hl, if_false] at h
        cases hf : gemini.flattenContents req.Contents req.SystemInstruction with
        | none => simp [hf] at h
        | some v =>
          simp only [hf, Option.some.injEq, Except.ok.injEq, Prod.mk.injEq] at h
          obtain ⟨hq, _⟩ := h
          subst hq
          exact ⟨rfl, rfl, rfl, rfl, rfl⟩

/-- C30, witness: the request built for the decoded test body. -/
theorem built_request_fields_witness :
    (plainRequest "Say hello" "test-user").User = "test-user" ∧
      (plainRequest "Say hello" "test-user").Inputs = [] :=
  have h := (built_request_fields (fun _ => .ok openai.sampleChat)
    (fun _ => .error "unexpected end of JSON input")
    (fun _ => .error "unexpected end of JSON input")
    (bareRequest "/v1/chat/completions" "" "") "test-user" false).1
    (plainRequest "Say hello" "test-user") false rfl
  ⟨h.2.2.2.1, h.1⟩

end adapter


/-! ## The streaming session -/

namespace dify

theorem Session.inv_init (events : List StreamEvent) (m : Nat) :
    Session.Inv events.length m (Session.init events m) := by
  simp [Session.Inv, Session.init, Drainer.holding, chanCap]

theorem Session.inv_step (n m : Nat) (a : Action) (s t : Session)
    (hi : Session.Inv n m s) (hs : step a s = some t) : Session.Inv n m t := by
  obtain ⟨source, inner, innerClosed, drainer, out, outClosed, closes, budget, received⟩ := s
  obtain ⟨h1, h2, h3, h4, h5, h6, h7⟩ := hi
  simp only at h1 h2 h3 h4 h5 h6 h7
  cases a <;> simp only [step] at hs
  · -- produce
    cases source with
    | nil => simp at hs
    | cons e rest =>
      simp only at hs
      split at hs
      · simp only [Option.some.injEq] at hs
        subst hs
        refine ⟨?_, h2, h3, ?_, ?_, h6, h7⟩
        · simp only [List.length_append, List.length_cons, List.length_nil] at h1 ⊢
          omega
        · intro hc
          exact absurd (h4 hc) (by simp)
        · intro hc
          exact absurd (h5 hc).1 (by simp)
      · simp at hs
  · -- closeInner
    cases source with
    | cons e rest => simp at hs
    | nil =>
      simp only at hs
      split at hs
      · simp at hs
      · simp only [Option.some.injEq] at hs
        subst hs
        exact ⟨h1, h2, h3, fun _ => rfl, h5, h6, h7⟩
  · -- recv
    cases drainer <;> cases inner <;> simp at hs
    subst hs
    refine ⟨?_, h2, h3, h4, ?_, ?_, ?_⟩
    · simp only [List.length_cons, Drainer.holding] at h1 ⊢
      omega
    · intro hc
      rcases hc with hc | hc <;> cases hc
    · intro hc
      cases hc
    · intro _
      exact h7 (by simp)
  · -- send
    cases drainer <;> simp at hs
    obtain ⟨hlt, hs⟩ := hs
    subst hs
    refine ⟨?_, h2, ?_, h4, ?_, ?_, ?_⟩
    · simp only [List.length_append, List.length_cons, List.length_nil, Drainer.holding] at h1 ⊢
      omega
    · simp only [List.length_append, List.length_cons, List.length_nil]
      omega
    · intro hc
      rcases hc with hc | hc <;> cases hc
    · intro hc
      cases hc
    · intro _
      exact h7 (by simp)
  · -- leave
    cases drainer <;> cases inner <;> simp at hs
    obtain ⟨hic, hs⟩ := hs
    subst hs
    refine ⟨?_, h2, h3, h4, ?_, ?_, ?_⟩
    · simpa [Drainer.holding] using h1
    · intro _
      exact ⟨h4 hic, rfl⟩
    · intro hc
      cases hc
    · intro _
      exact h7 (by simp)
  · -- close
    cases drainer <;> simp at hs
    subst hs
    refine ⟨?_, h2, h3, h4, ?_, ?_, ?_⟩
    · simpa [Drainer.holding] using h1
    · intro _
      exact h5 (Or.inl rfl)
    · intro _
      have := h7 (by simp)
      simp [this]
    · intro hc
      exact absurd rfl hc
  · -- consume
    cases out <;> cases budget <;> simp at hs
    subst hs
    refine ⟨?_, ?_, ?_, h4, h5, h6, h7⟩
    · simp only [List.length_append, List.length_cons, List.length_nil] at h1 ⊢
      omega
    · simp only [List.length_append, List.length_cons, List.length_nil] at h2 ⊢
      omega
    · simp only [List.length_cons] at h3 ⊢
      omega

theorem Session.inv_run (n m : Nat) (sched : List Action) (s t : Session)
    (hi : Session.Inv n m s) (hr : run sched s = some t) : Session.Inv n m t := by
  induction sched generalizing s with
  | nil =>
    simp only [run, Option.some.injEq] at hr
    exact hr ▸ hi
  | cons a rest ih =>
    rw [run] at hr
    cases hs : step a s with
    | none => simp [hs] at hr
    | some u =>
      simp only [hs] at hr
      exact ih u (Session.inv_step n m a s u hi hs) hr

theorem Session.closes_of_inv (n m : Nat) (s : Session) (hi : Session.Inv n m s) :
    s.closes ≤ 1 ∧ (n > m + chanCap → s.closes = 0) := by
  obtain ⟨h1, h2, h3, h4, h5, h6, h7⟩ := hi
  constructor
  · by_cases hd : s.drainer = .returned
    · rw [h6 hd]
    · rw [h7 hd]
      omega
  · intro hn
    apply h7
    intro hd
    obtain ⟨hs, hin⟩ := h5 (Or.inr hd)
    rw [hs, hin, hd] at h1
    simp only [List.length_nil, Drainer.holding] at h1
    omega

theorem Session.stuck_closed (n m : Nat) (s : Session) (hi : Session.Inv n m s)
    (hnm : n ≤ m) (hst : s.stuck) : s.closes = 1 := by
  obtain ⟨source, inner, innerClosed, drainer, out, outClosed, closes, budget, received⟩ := s
  obtain ⟨h1, h2, h3, h4, h5, h6, h7⟩ := hi
  simp only at h1 h2 h3 h4 h5 h6 h7
  cases drainer with
  | returned => exact h6 rfl
  | closing =>
    have := hst .close
    simp [step] at this
  | sending e =>
    exfalso
    have hsend := hst .send
    simp only [step] at hsend
    have hfull : ¬ out.length < chanCap := by
      intro hlt
      simp [hlt] at hsend
    have hcons := hst .consume
    simp only [step] at hcons
    cases out with
    | nil => simp [chanCap] at hfull
    | cons o rest =>
      cases budget with
      | succ b => simp at hcons
      | zero =>
        simp only [Drainer.holding, List.length_cons] at h1
        omega
  | receiving =>
    exfalso
    have hrecv := hst .recv
    simp only [step] at hrecv
    cases inner with
    | cons i rest => simp at hrecv
    | nil =>
      have hleave := hst .leave
      simp only [step] at hleave
      cases innerClosed with
      | true => simp at hleave
      | false =>
        have hci := hst .closeInner
        have hp := hst .produce
        simp only [step] at hci hp
        cases source with
        | nil => simp at hci
        | cons e rest => simp [chanCap] at hp

/-- C24, on the code. In every state a streaming session reaches, `resp.Body.Close()` has
been called at most once.  When the consumer receives fewer events than the stream has by
more than the capacity of the channel, it has never been called: the drainer stays at
`ch <- ev` for ever.  When the consumer receives every event, it has been called exactly
once in every state where no goroutine can move. -/
theorem streaming_session_body_close (events : List StreamEvent) (m : Nat)
    (sched : List Action) (s : Session)
    (hr : run sched (Session.init events m) = some s) :
    s.closes ≤ 1 ∧ (events.length > m + chanCap → s.closes = 0) ∧
      (events.length ≤ m → s.stuck → s.closes = 1) := by
  have hi := Session.inv_run events.length m sched _ s (Session.inv_init events m) hr
  have hc := Session.closes_of_inv events.length m s hi
  exact ⟨hc.1, hc.2, fun hnm hst => Session.stuck_closed events.length m s hi hnm hst⟩

/-- C24, witness: 18 token events and a consumer that returns after the first one; at the
end of the schedule the body has not been closed. -/
theorem streaming_session_body_close_witness :
    (run abandonedSchedule
        (Session.init (List.replicate 18 (tokenEvent "x")) 1)).map (fun s => s.closes) =
      some 0 := by
  cases h : run abandonedSchedule (Session.init (List.replicate 18 (tokenEvent "x")) 1) with
  | none =>
    have hs : (run abandonedSchedule
        (Session.init (List.replicate 18 (tokenEvent "x")) 1)).isSome = true := by decide
    rw [h] at hs
    cases hs
  | some s =>
    have hz := (streaming_session_body_close (List.replicate 18 (tokenEvent "x")) 1
      abandonedSchedule s h).2.1 (by decide)
    simp only [Option.map_some', hz]

/-- The state the schedule `abandonedSchedule` ends in is a deadlock: no goroutine can
move, the drainer holds the last event, and the body has not been closed. -/
theorem abandoned_session_deadlock :
    (run abandonedSchedule
        (Session.init (List.replicate 18 (tokenEvent "x")) 1)).map
        (fun s => (List.map (fun a => (step a s).isSome)
          [.produce, .closeInner, .recv, .send, .leave, .close, .consume],
          s.drainer, s.out.length, s.closes)) =
      some ([false, false, false, false, false, false, false],
        Drainer.sending (tokenEvent "x"), 16, 0) := by
  decide

end dify
